import Mathlib

/-!
# Verification of the xls_generator aggregation engine

Shallow embedding of the result-aggregation and documentation-resolution
logic of `xls_generator.py` (class `AccessibilityReportGenerator`), together
with theorems settling the specification claims about it.

JSON-like values coming out of MongoDB documents are modelled by `JValue`.
Python dictionaries are modelled as association lists in insertion order:
lookup returns the first matching key, assignment replaces the value of the
first matching key in place (Python preserves the original position of a key
on overwrite) or appends a fresh key at the end.  Python code that can raise
is modelled in `Except String`; the error string names the Python exception.
Console output (`print` calls) is omitted: it does not affect the state.
-/

namespace XlsGen

/-- JSON-like values as produced by MongoDB / the test runner. -/
inductive JValue where
  | null
  | bool (b : Bool)
  | int (n : Int)
  | str (s : String)
  | list (xs : List JValue)
  | obj (fields : List (String × JValue))

instance : Inhabited JValue := ⟨JValue.null⟩

/-- A Python dict with string keys (MongoDB documents always have string keys). -/
abbrev Obj := List (String × JValue)

/-- First-match association-list lookup (`d[k]` / `k in d` on a dict). -/
def dictFind (k : String) : List (String × α) → Option α
  | [] => none
  | (k', v) :: rest => if k' = k then some v else dictFind k rest

/-- `k in d` for a dict. -/
def dictMem (k : String) (d : List (String × α)) : Bool :=
  (dictFind k d).isSome

/-- `d[k] = v`: replace the first binding of `k` in place, else append. -/
def dictSet (k : String) (v : α) : List (String × α) → List (String × α)
  | [] => [(k, v)]
  | (k', v') :: rest =>
    if k' = k then (k', v) :: rest else (k', v') :: dictSet k v rest

/-- `d.update(e)`: insert the bindings of `e` in order, overwriting. -/
def dictUpdate (d e : List (String × α)) : List (String × α) :=
  e.foldl (fun acc p => dictSet p.1 p.2 acc) d

/-! ## Python string primitives

Implemented structurally over `List Char` so that every definition reduces
inside the kernel.  Semantics follow CPython on ASCII data (the only data the
generator handles: test identifiers, flag names, URLs). -/

/-- `needle` is a prefix of `hay` (char lists). -/
def listIsPfx : List Char → List Char → Bool
  | [], _ => true
  | _ :: _, [] => false
  | a :: as, b :: bs => a = b && listIsPfx as bs

/-- Python `s.startswith(p)`. -/
def pyStartsWith (s p : String) : Bool := listIsPfx p.data s.data

/-- Python `s.endswith(p)`. -/
def pyEndsWith (s p : String) : Bool := listIsPfx p.data.reverse s.data.reverse

/-- Python `s.replace(a, b)` for single characters. -/
def pyReplaceChar (s : String) (a b : Char) : String :=
  ⟨s.data.map fun c => if c = a then b else c⟩

/-- Python `s.replace(a, '')` for a single character: removal. -/
def pyRemoveChar (s : String) (a : Char) : String :=
  ⟨s.data.filter fun c => c ≠ a⟩

/-- Python `s.lower()` (ASCII). -/
def pyLower (s : String) : String := ⟨s.data.map Char.toLower⟩

/-- Python `s.upper()` (ASCII). -/
def pyUpper (s : String) : String := ⟨s.data.map Char.toUpper⟩

/-- Python `s.capitalize()`: first char upper-cased, the rest lower-cased. -/
def pyCapitalize (s : String) : String :=
  match s.data with
  | [] => ""
  | c :: rest => ⟨Char.toUpper c :: rest.map Char.toLower⟩

/-- One step of Python `s.title()`: `prevAlpha` says whether the previous
character was alphabetic. -/
def pyTitleAux : Bool → List Char → List Char
  | _, [] => []
  | prevAlpha, c :: rest =>
    if c.isAlpha then
      (if prevAlpha then c.toLower else c.toUpper) :: pyTitleAux true rest
    else
      c :: pyTitleAux false rest

/-- Python `s.title()` (ASCII). -/
def pyTitle (s : String) : String := ⟨pyTitleAux false s.data⟩

/-- Python `sep.join(words)`. -/
def pyJoin (sep : String) : List String → String
  | [] => ""
  | [w] => w
  | w :: rest => w ++ sep ++ pyJoin sep rest

/-- Split a char list at every occurrence of `sep` (Python `s.split(sep)` for
a one-character separator: empty pieces are kept). -/
def splitOnCharAux (sep : Char) : List Char → List (List Char)
  | [] => [[]]
  | c :: rest =>
    match splitOnCharAux sep rest with
    | [] => []
    | g :: gs => if c = sep then [] :: g :: gs else (c :: g) :: gs

/-- Python `s.split(sep)` for a one-character separator. -/
def pySplitChar (s : String) (sep : Char) : List String :=
  (splitOnCharAux sep s.data).map String.mk

/-- Python `s.strip()` on both ends (whitespace). -/
def pyStrip (s : String) : String :=
  ⟨((s.data.dropWhile Char.isWhitespace).reverse.dropWhile Char.isWhitespace).reverse⟩

/-- Substring replacement with fuel (fuel = input length at top level; every
step consumes at least one character, so the fuel never runs out for a
non-empty pattern).  Models Python `s.replace(pat, rep)`. -/
def replaceSubAux (pat rep : List Char) : Nat → List Char → List Char
  | 0, l => l
  | _ + 1, [] => []
  | fuel + 1, c :: rest =>
    if listIsPfx pat (c :: rest) then
      rep ++ replaceSubAux pat rep fuel (List.drop (pat.length - 1) rest)
    else
      c :: replaceSubAux pat rep fuel rest

/-- Python `s.replace(pat, rep)` for a non-empty pattern. -/
def pyReplaceSub (s pat rep : String) : String :=
  ⟨replaceSubAux pat.data rep.data s.data.length s.data⟩

/-- First occurrence split: `some (before, after)` around the first
occurrence of `pat`, or `none`. -/
def findSub (pat : List Char) : List Char → Option (List Char × List Char)
  | [] => none
  | c :: rest =>
    if listIsPfx pat (c :: rest) then some ([], List.drop pat.length (c :: rest))
    else (findSub pat rest).map fun p => (c :: p.1, p.2)

/-- Is `pat` a substring of `s` (Python `pat in s` on strings)? -/
def pySubstrMem (pat s : String) : Bool :=
  if pat.data = [] then true else (findSub pat.data s.data).isSome

/-- Lexicographic comparison on char lists by code points (Python `<` on
strings). -/
def listLtChars : List Char → List Char → Bool
  | [], [] => false
  | [], _ :: _ => true
  | _ :: _, [] => false
  | a :: as, b :: bs => if a = b then listLtChars as bs else decide (a < b)

/-- Insert into a sorted list of strings (ascending). -/
def insertStr (s : String) : List String → List String
  | [] => [s]
  | t :: rest => if listLtChars t.data s.data then t :: insertStr s rest else s :: t :: rest

/-- Python `sorted` on a list of strings (insertion sort, ascending). -/
def sortStrings : List String → List String
  | [] => []
  | s :: rest => insertStr s (sortStrings rest)

/-- Append a string to a list if it is not already present (models adding to
a Python `set`; iteration order of the model is first-insertion order, which
is irrelevant because the source always sorts before iterating). -/
def insertUniq (s : String) (l : List String) : List String :=
  if l.contains s then l else l ++ [s]

/-! ## Python value primitives -/

mutual
/-- Python `repr(...)` of a JSON-like value (no escape handling: the data
handled by the generator contains no quotes). -/
def pyRepr : JValue → String
  | .null => "None"
  | .bool true => "True"
  | .bool false => "False"
  | .int n => toString n
  | .str s => "'" ++ s ++ "'"
  | .list xs => "[" ++ pyJoin ", " (pyReprList xs) ++ "]"
  | .obj fs => "\x7b" ++ pyJoin ", " (pyReprObj fs) ++ "\x7d"

def pyReprList : List JValue → List String
  | [] => []
  | v :: rest => pyRepr v :: pyReprList rest

def pyReprObj : List (String × JValue) → List String
  | [] => []
  | (k, v) :: rest => ("'" ++ k ++ "': " ++ pyRepr v) :: pyReprObj rest
end

/-- Python `str(...)`. -/
def pyStr : JValue → String
  | .str s => s
  | v => pyRepr v

mutual
/-- Structural equality test on `JValue` (Python `==` on JSON data). -/
def beqV : JValue → JValue → Bool
  | .null, .null => true
  | .bool a, .bool b => a = b
  | .int a, .int b => a = b
  | .str a, .str b => a = b
  | .list xs, .list ys => beqVList xs ys
  | .obj fs, .obj gs => beqVObj fs gs
  | _, _ => false

def beqVList : List JValue → List JValue → Bool
  | [], [] => true
  | x :: xs, y :: ys => beqV x y && beqVList xs ys
  | _, _ => false

def beqVObj : List (String × JValue) → List (String × JValue) → Bool
  | [], [] => true
  | (k, v) :: xs, (k', v') :: ys => k = k' && beqV v v' && beqVObj xs ys
  | _, _ => false
end

/-- JSON escape of a string (quotes and backslashes). -/
def jsonEscape (s : String) : String :=
  ⟨s.data.foldr (fun c acc =>
    if c = '"' then '\\' :: '"' :: acc
    else if c = '\\' then '\\' :: '\\' :: acc
    else c :: acc) []⟩

mutual
/-- Python `json.dumps(...)` with the default separators `', '` and `': '`. -/
def jsonDumps : JValue → String
  | .null => "null"
  | .bool true => "true"
  | .bool false => "false"
  | .int n => toString n
  | .str s => "\"" ++ jsonEscape s ++ "\""
  | .list xs => "[" ++ pyJoin ", " (jsonDumpsList xs) ++ "]"
  | .obj fs => "\x7b" ++ pyJoin ", " (jsonDumpsObj fs) ++ "\x7d"

def jsonDumpsList : List JValue → List String
  | [] => []
  | v :: rest => jsonDumps v :: jsonDumpsList rest

def jsonDumpsObj : List (String × JValue) → List String
  | [] => []
  | (k, v) :: rest => ("\"" ++ jsonEscape k ++ "\": " ++ jsonDumps v) :: jsonDumpsObj rest
end

/-- Python truthiness. -/
def pyTruthy : JValue → Bool
  | .null => false
  | .bool b => b
  | .int n => n ≠ 0
  | .str s => s ≠ ""
  | .list [] => false
  | .list (_ :: _) => true
  | .obj [] => false
  | .obj (_ :: _) => true

/-- Python `k in v` for a string key `k` (raises `TypeError` for values that
are not containers). -/
def pyContains (v : JValue) (k : String) : Except String Bool :=
  match v with
  | .obj f => .ok (dictMem k f)
  | .list xs => .ok (xs.any fun x => beqV x (.str k))
  | .str s => .ok (pySubstrMem k s)
  | _ => .error "TypeError: argument of type is not iterable"

/-- Python `v[k]` for a string key. -/
def pyIndex (v : JValue) (k : String) : Except String JValue :=
  match v with
  | .obj f =>
    match dictFind k f with
    | some w => .ok w
    | none => .error ("KeyError: " ++ k)
  | _ => .error "TypeError: value is not subscriptable"

/-- Python `v.get(k, d)` (raises `AttributeError` when `v` is not a dict). -/
def pyGetD (v : JValue) (k : String) (d : JValue) : Except String JValue :=
  match v with
  | .obj f => .ok ((dictFind k f).getD d)
  | _ => .error "AttributeError: get"

/-- Python `for x in v`: the sequence of iterated items (dicts iterate their
keys, strings their characters). -/
def pyIter (v : JValue) : Except String (List JValue) :=
  match v with
  | .list xs => .ok xs
  | .obj f => .ok (f.map fun p => JValue.str p.1)
  | .str s => .ok (s.data.map fun c => JValue.str ⟨[c]⟩)
  | _ => .error "TypeError: not iterable"

/-- Python `len(v)`. -/
def pyLen (v : JValue) : Except String Nat :=
  match v with
  | .list xs => .ok xs.length
  | .obj f => .ok f.length
  | .str s => .ok s.data.length
  | _ => .error "TypeError: object has no len"

/-- A value used where Python requires a `str` (e.g. `field.endswith(...)`). -/
def getStr (v : JValue) : Except String String :=
  match v with
  | .str s => .ok s
  | _ => .error "AttributeError: endswith"

/-! ## `AccessibilityReportGenerator.format_issue_name` (lines 282-342)

The generator's documentation cache `self.test_documentation` is modelled by
an association list `docs : Obj` mapping test identifiers to the raw
documentation values extracted from the database. -/

/-- Lines 288-296: split camel case into words.  `current` is
`current_word`; the final `words.append(current_word)` is the base case. -/
def camel_words (current : String) : List Char → List String
  | [] => [current]
  | c :: rest =>
    if c.isUpper && current ≠ "" then current :: camel_words ⟨[c]⟩ rest
    else camel_words (current ++ ⟨[c]⟩) rest

/-- Lines 298-299: `issue_type = ' '.join(words).title()`. -/
def issue_type_of (flag_text : String) : String :=
  pyTitle (pyJoin " " (camel_words "" flag_text.data))

/-- Lines 300-303: `formatted_test_name`. -/
def format_test_name (test_name : String) : String :=
  pyJoin " " ((pySplitChar test_name '_').map pyCapitalize)

/-- Lines 306-312: the five naming variants tried for a test name, in
source order. -/
def test_name_variants (test_name : String) : List String :=
  [test_name,
   pyReplaceChar test_name '-' '_',
   pyReplaceChar test_name '_' '-',
   pyLower test_name,
   pyRemoveChar (pyRemoveChar test_name '-') '_']

/-- Lines 315-317: return the documentation entry of the first variant
present in the cache (`if variant in self.test_documentation`). -/
def firstPresent (docs : Obj) : List String → Option JValue
  | [] => none
  | v :: rest => if dictMem v docs then dictFind v docs else firstPresent docs rest

/-- Line 315-316 specialised to the source's variant list: documentation
lookup as `format_issue_name` performs it. -/
def lookup_doc_variants (docs : Obj) (test_name : String) : Option JValue :=
  firstPresent docs (test_name_variants test_name)

/-- Lines 325-330: the four ways a flag may be referenced in
`resultsFields`. -/
def flag_ref_variants (flag_name flag_text : String) : List String :=
  ["pageFlags." ++ flag_name,
   "pageFlags.has" ++ flag_text,
   "details." ++ flag_name,
   flag_name]

/-- Lines 333-334: `any(field.endswith(fv) or field == fv ...)` scanned over
the iterated `resultsFields`; stops at the first matching field. -/
def any_field_matches (fvs : List String) : List JValue → Except String Bool
  | [] => .ok false
  | f :: rest => do
    let s ← getStr f
    if fvs.any (fun fv => pyEndsWith s fv || s = fv) then .ok true
    else any_field_matches fvs rest

/-- Lines 321-336: scan the documentation record's `tests` list for a check
referencing the flag; returns the matched check's display name. -/
def find_matching_check (fvs : List String) (issue_type : String) :
    List JValue → Except String (Option String)
  | [] => .ok none
  | test :: rest => do
    let rf ← pyGetD test "resultsFields" (.obj [])
    let fields ← pyIter rf
    match ← any_field_matches fvs fields with
    | true => do
      let nm ← pyGetD test "name" (.str issue_type)
      .ok (some (pyStr nm))
    | false => find_matching_check fvs issue_type rest

/-- `AccessibilityReportGenerator.format_issue_name` (lines 282-342).
Returns the issue label; never raises for well-formed documentation data. -/
def format_issue_name (docs : Obj) (test_name flag_name : String) :
    Except String String := do
  let flag_text : String :=
    if pyStartsWith flag_name "has" then ⟨flag_name.data.drop 3⟩ else flag_name
  let issue_type := issue_type_of flag_text
  let formatted_test_name := format_test_name test_name
  match lookup_doc_variants docs test_name with
  | some docsv => do
    let tnv ← pyGetD docsv "testName" (.str formatted_test_name)
    let doc_test_name := pyStr tnv
    let testsv ← pyGetD docsv "tests" (.list [])
    let tests ← pyIter testsv
    match ← find_matching_check (flag_ref_variants flag_name flag_text) issue_type tests with
    | some check_name => .ok (doc_test_name ++ " - " ++ check_name)
    | none => .ok (doc_test_name ++ ": " ++ issue_type)
  | none => .ok (formatted_test_name ++ ": " ++ issue_type)

/-! ## `AccessibilityReportGenerator.calculate_summary` (lines 368-426)

The database query (lines 370-382) is external; the model receives the
fetched page-result documents directly.  `completion_time` (wall clock) is
omitted.  Only `total_issues` and `issues_by_type` are mutated inside the
aggregation loop, so the loop state is an `IssueTotals`; `total_pages` is
fixed at initialisation and `pages_with_issues` recomputed after the loop
(lines 421-424), and both are assembled at the end. -/

/-- The summary fields mutated by the flag-walking loop. -/
structure IssueTotals where
  total_issues : Int
  issues_by_type : List (String × Int)
deriving DecidableEq

/-- The summary record returned by `calculate_summary`. -/
structure Summary where
  total_pages : Nat
  pages_with_issues : Nat
  total_issues : Int
  issues_by_type : List (String × Int)
deriving DecidableEq

/-- Lines 417-419: add `count` to `total_issues` and to the
`issues_by_type` entry of `label` (`.get(label, 0) + count`). -/
def addIssue (t : IssueTotals) (label : String) (count : Int) : IssueTotals :=
  ⟨t.total_issues + count,
   dictSet label ((dictFind label t.issues_by_type).getD 0 + count) t.issues_by_type⟩

/-- Line 410: `isinstance(detail_value, (list, int))` — note that Python
`bool` is a subclass of `int`, so boolean details qualify too.  Returns the
value assigned to `count` (raw, for display) and its numeric value. -/
def detail_count : JValue → Option (JValue × Int)
  | .list xs => some (.int xs.length, (xs.length : Int))
  | .int n => some (.int n, n)
  | .bool b => some (.bool b, if b then 1 else 0)
  | _ => none

/-- Lines 409-419: the loop over `details.items()` for one true flag.
`count` mirrors the Python local (initialised to 1 by the caller); an
accumulation happens for every qualifying detail with positive count. -/
def process_details (label : String) : Int → IssueTotals → List (String × JValue) → IssueTotals
  | _, t, [] => t
  | count, t, (_, dv) :: rest =>
    match detail_count dv with
    | some (_, c) =>
      if c > 0 then process_details label c (addIssue t label c) rest
      else process_details label c t rest
    | none => process_details label count t rest

/-- Line 403: `isinstance(flag_value, bool) and flag_value and
flag_name.startswith('has')`. -/
def flag_is_issue (flag_value : JValue) (flag_name : String) : Bool :=
  (match flag_value with | .bool true => true | _ => false) && pyStartsWith flag_name "has"

/-- Lines 406-407: `page_flags.get('details', {})` followed by
`details.items()` (raises when the value is present but not a dict). -/
def get_details (pf : Obj) : Except String (List (String × JValue)) :=
  match dictFind "details" pf with
  | none => .ok []
  | some (.obj f) => .ok f
  | some _ => .error "AttributeError: items"

/-- Lines 402-419: the loop over `page_flags.items()`. -/
def process_flags (docs : Obj) (test_name : String) (pf : Obj) (t : IssueTotals) :
    List (String × JValue) → Except String IssueTotals
  | [] => .ok t
  | (flag_name, flag_value) :: rest =>
    if flag_is_issue flag_value flag_name then do
      let label ← format_issue_name docs test_name flag_name
      let details ← get_details pf
      process_flags docs test_name pf (process_details label 1 t details) rest
    else process_flags docs test_name pf t rest

/-- Lines 396-419: the loop over `tests.items()`. -/
def process_tests (docs : Obj) (t : IssueTotals) :
    List (String × JValue) → Except String IssueTotals
  | [] => .ok t
  | (test_name, test_data) :: rest =>
    match test_data with
    | .obj td => do
      let test_obj := (dictFind test_name td).getD (.obj [])
      let pfv ← pyGetD test_obj "pageFlags" (.obj [])
      if pyTruthy pfv then
        match pfv with
        | .obj pf => do
          let t' ← process_flags docs test_name pf t pf
          process_tests docs t' rest
        | _ => .error "AttributeError: items"
      else process_tests docs t rest
    | _ => process_tests docs t rest

/-- Lines 392-394: guard and extraction of the `tests` dict of one
page-result document (`.get('tests', {})` — tolerant of a missing key). -/
def process_page (docs : Obj) (t : IssueTotals) (result : Obj) :
    Except String IssueTotals :=
  match dictFind "results" result with
  | none => .ok t
  | some rv => do
    let hasAcc ← pyContains rv "accessibility"
    if hasAcc then do
      let acc ← pyIndex rv "accessibility"
      let testsv ← pyGetD acc "tests" (.obj [])
      match testsv with
      | .obj tests => process_tests docs t tests
      | _ => .error "AttributeError: items"
    else .ok t

/-- The loop over `results` (line 392). -/
def process_pages (docs : Obj) (t : IssueTotals) : List Obj → Except String IssueTotals
  | [] => .ok t
  | r :: rest => do
    let t' ← process_page docs t r
    process_pages docs t' rest

/-- Lines 421-424: one conjunct of the `pages_with_issues` filter — the page
has a non-empty `tests` mapping (truthiness, not actual issues). -/
def page_has_tests (result : Obj) : Except String Bool :=
  match dictFind "results" result with
  | none => .ok false
  | some rv => do
    let hasAcc ← pyContains rv "accessibility"
    if hasAcc then do
      let acc ← pyIndex rv "accessibility"
      let testsv ← pyGetD acc "tests" (.obj [])
      .ok (pyTruthy testsv)
    else .ok false

/-- Lines 421-424: `pages_with_issues` count. -/
def count_pages_with_issues : List Obj → Except String Nat
  | [] => .ok 0
  | r :: rest => do
    let b ← page_has_tests r
    let n ← count_pages_with_issues rest
    .ok (if b then n + 1 else n)

/-- `AccessibilityReportGenerator.calculate_summary` (lines 368-426). -/
def calculate_summary (docs : Obj) (results : List Obj) : Except String Summary := do
  let t ← process_pages docs ⟨0, []⟩ results
  let pwi ← count_pages_with_issues results
  .ok ⟨results.length, pwi, t.total_issues, t.issues_by_type⟩

/-! ## The `Issues by URL` table (lines 729-761)

`issues_by_url` is keyed by the raw `url` values of the page results (Python
dict keys); entries are keyed by `JValue` with structural equality. -/

/-- First-match lookup in a `JValue`-keyed dict. -/
def jdictFind (k : JValue) : List (JValue × α) → Option α
  | [] => none
  | (k', v) :: rest => if beqV k' k then some v else jdictFind k rest

/-- Assignment in a `JValue`-keyed dict. -/
def jdictSet (k : JValue) (v : α) : List (JValue × α) → List (JValue × α)
  | [] => [(k, v)]
  | (k', v') :: rest =>
    if beqV k' k then (k', v) :: rest else (k', v') :: jdictSet k v rest

/-- One row of the per-URL issue list (lines 754-758): `Issue Type`,
`Count` (the raw Python value assigned to `count`), `Details`. -/
structure UrlIssue where
  issue_type : String
  count : JValue
  details : String

/-- Lines 746-758: the details loop for one true flag; a row is appended for
every qualifying detail with positive count. -/
def url_detail_rows (label : String) :
    Int → List UrlIssue → List (String × JValue) → List UrlIssue
  | _, acc, [] => acc
  | count, acc, (_, dv) :: rest =>
    match detail_count dv with
    | some (raw, c) =>
      if c > 0 then
        url_detail_rows label c
          (acc ++ [⟨label, raw, "Found " ++ pyStr raw ++ " issue(s)"⟩]) rest
      else url_detail_rows label c acc rest
    | none => url_detail_rows label count acc rest

/-- Lines 741-758: the loop over `page_flags.items()` of the URL table. -/
def url_flag_rows (docs : Obj) (test_name : String) (pf : Obj)
    (acc : List UrlIssue) : List (String × JValue) → Except String (List UrlIssue)
  | [] => .ok acc
  | (flag_name, flag_value) :: rest =>
    if flag_is_issue flag_value flag_name then do
      let label ← format_issue_name docs test_name flag_name
      let details ← get_details pf
      url_flag_rows docs test_name pf (url_detail_rows label 1 acc details) rest
    else url_flag_rows docs test_name pf acc rest

/-- Lines 736-758: the loop over `tests.items()` of the URL table (note: no
truthiness guard on `page_flags` here, unlike `calculate_summary`). -/
def url_test_rows (docs : Obj) (acc : List UrlIssue) :
    List (String × JValue) → Except String (List UrlIssue)
  | [] => .ok acc
  | (test_name, test_data) :: rest =>
    match test_data with
    | .obj td => do
      let test_obj := (dictFind test_name td).getD (.obj [])
      let pfv ← pyGetD test_obj "pageFlags" (.obj [])
      match pfv with
      | .obj pf => do
        let acc' ← url_flag_rows docs test_name pf acc pf
        url_test_rows docs acc' rest
      | _ => .error "AttributeError: items"
    | _ => url_test_rows docs acc rest

/-- Lines 729-761: build `issues_by_url`.  The record guard tolerates a
missing `results`/`accessibility`, but the body indexes
`result['results']['accessibility']['tests']` directly — a missing `tests`
key raises `KeyError`. -/
def issues_by_url_go (docs : Obj) (m : List (JValue × List UrlIssue)) :
    List Obj → Except String (List (JValue × List UrlIssue))
  | [] => .ok m
  | result :: rest => do
    let url := (dictFind "url" result).getD (.str "Unknown URL")
    let m' ←
      match dictFind "results" result with
      | none => pure m
      | some rv => do
        let hasAcc ← pyContains rv "accessibility"
        if hasAcc then do
          let acc ← pyIndex rv "accessibility"
          let testsv ← pyIndex acc "tests"
          match testsv with
          | .obj tests => do
            let rows ← url_test_rows docs [] tests
            pure (if rows.isEmpty then m else jdictSet url rows m)
          | _ => .error "AttributeError: items"
        else pure m
    issues_by_url_go docs m' rest

/-- The `Issues by URL` aggregation (lines 729-761). -/
def issues_by_url (docs : Obj) (results : List Obj) :
    Except String (List (JValue × List UrlIssue)) :=
  issues_by_url_go docs [] results

/-! ## The `Issues by Site` table (lines 777-831) -/

/-- Valid characters of a URL scheme after the first (`urlparse`). -/
def valid_scheme_chars (l : List Char) : Bool :=
  l.all fun c => c.isAlphanum || c = '+' || c = '-' || c = '.'

/-- Lines 780-785: `f"{urlparse(url).scheme}://{urlparse(url).netloc}"`,
with the `try/except` producing `"Unknown Site"` for non-string URLs.
Models `urlparse`'s scheme/netloc extraction: a scheme is recognised before
the first `:` when it starts with a letter and has only scheme characters
(and is lower-cased); the netloc follows `//` up to `/`, `?` or `#`. -/
def py_url_origin : JValue → String
  | .str s =>
    let parsed :=
      match findSub [':'] s.data with
      | some (before, after) =>
        if (List.headD before ' ').isAlpha && valid_scheme_chars before then
          (String.mk (before.map Char.toLower), after)
        else ("", s.data)
      | none => ("", s.data)
    let netloc : List Char :=
      if listIsPfx ['/', '/'] parsed.2 then
        (parsed.2.drop 2).takeWhile fun c => c ≠ '/' && c ≠ '?' && c ≠ '#'
      else []
    parsed.1 ++ "://" ++ String.mk netloc
  | _ => "Unknown Site"

/-- Per-site aggregate of one issue type: `Count` and `Pages Affected`
(lines 811-817). -/
structure SiteAgg where
  count : Int
  pages_affected : Int

/-- Lines 803-817: the details loop for one true flag of the site table;
every qualifying detail adds its count and bumps `Pages Affected` by 1. -/
def site_detail_agg (label : String) :
    Int → List (String × SiteAgg) → List (String × JValue) → List (String × SiteAgg)
  | _, m, [] => m
  | count, m, (_, dv) :: rest =>
    match detail_count dv with
    | some (_, c) =>
      if c > 0 then
        let cur := (dictFind label m).getD ⟨0, 0⟩
        site_detail_agg label c
          (dictSet label ⟨cur.count + c, cur.pages_affected + 1⟩ m) rest
      else site_detail_agg label c m rest
    | none => site_detail_agg label count m rest

/-- Lines 798-817: the loop over `page_flags.items()` of the site table. -/
def site_flag_agg (docs : Obj) (test_name : String) (pf : Obj)
    (m : List (String × SiteAgg)) :
    List (String × JValue) → Except String (List (String × SiteAgg))
  | [] => .ok m
  | (flag_name, flag_value) :: rest =>
    if flag_is_issue flag_value flag_name then do
      let label ← format_issue_name docs test_name flag_name
      let details ← get_details pf
      site_flag_agg docs test_name pf (site_detail_agg label 1 m details) rest
    else site_flag_agg docs test_name pf m rest

/-- Lines 793-817: the loop over `tests.items()` of the site table. -/
def site_test_agg (docs : Obj) (m : List (String × SiteAgg)) :
    List (String × JValue) → Except String (List (String × SiteAgg))
  | [] => .ok m
  | (test_name, test_data) :: rest =>
    match test_data with
    | .obj td => do
      let test_obj := (dictFind test_name td).getD (.obj [])
      let pfv ← pyGetD test_obj "pageFlags" (.obj [])
      match pfv with
      | .obj pf => do
        let m' ← site_flag_agg docs test_name pf m pf
        site_test_agg docs m' rest
      | _ => .error "AttributeError: items"
    | _ => site_test_agg docs m rest

/-- Lines 777-831: build `issues_by_site`.  As for the URL table, `tests` is
indexed directly and a missing key raises `KeyError`. -/
def issues_by_site_go (docs : Obj) (m : List (String × List (String × SiteAgg))) :
    List Obj → Except String (List (String × List (String × SiteAgg)))
  | [] => .ok m
  | result :: rest => do
    let full_url := (dictFind "url" result).getD (.str "Unknown URL")
    let site_url := py_url_origin full_url
    let m' ←
      match dictFind "results" result with
      | none => pure m
      | some rv => do
        let hasAcc ← pyContains rv "accessibility"
        if hasAcc then do
          let acc ← pyIndex rv "accessibility"
          let testsv ← pyIndex acc "tests"
          let m₁ := if dictMem site_url m then m else dictSet site_url [] m
          match testsv with
          | .obj tests => do
            let inner ← site_test_agg docs ((dictFind site_url m₁).getD []) tests
            pure (dictSet site_url inner m₁)
          | _ => .error "AttributeError: items"
        else pure m
    issues_by_site_go docs m' rest

/-- The `Issues by Site` aggregation (lines 777-831). -/
def issues_by_site (docs : Obj) (results : List Obj) :
    Except String (List (String × List (String × SiteAgg))) :=
  issues_by_site_go docs [] results

/-! ## `AccessibilityReportGenerator.collect_test_documentation` (lines 120-280)

The documentation cache `self.test_documentation` is the `Obj` threaded
through these functions.  Print statements are omitted; where a print's own
expression can raise (only for ill-shaped run documents inside the
`try/except` blocks), the model marks the run as raised, which the source
swallows while keeping the state accumulated so far. -/

/-- Guarded insertion: `if test_name not in self.test_documentation:
self.test_documentation[test_name] = doc`. -/
def docs_add_if_absent (m : Obj) (k : String) (v : JValue) : Obj :=
  if dictMem k m then m else dictSet k v m

/-- Lines 142-146: the loop over a test run's `documentation.items()`. -/
def add_entries_guarded (m : Obj) : List (String × JValue) → Obj
  | [] => m
  | (k, v) :: rest => add_entries_guarded (docs_add_if_absent m k v) rest

/-- Lines 151-156: the loop over a test run's `tests.items()`. -/
def run_tests_docs (m : Obj) : List (String × JValue) → Obj
  | [] => m
  | (test_name, test_data) :: rest =>
    match test_data with
    | .obj td =>
      if dictMem "documentation" td then
        run_tests_docs
          (docs_add_if_absent m test_name ((dictFind "documentation" td).getD .null)) rest
      else run_tests_docs m rest
    | _ => run_tests_docs m rest

/-- Lines 137-156 for one test run.  The second component is `true` when the
body raised (`tests.items()` on a non-dict, line 151); the exception is
swallowed at line 157 with the state kept. -/
def collect_run_docs (m : Obj) (run : Obj) : Obj × Bool :=
  let m₁ :=
    match dictFind "documentation" run with
    | some (.obj entries) => add_entries_guarded m entries
    | _ => m
  match dictFind "tests" run with
  | none => (m₁, false)
  | some (.obj tests) => (run_tests_docs m₁ tests, false)
  | some _ => (m₁, true)

/-- Lines 134-158: the whole `test_runs` scan inside `try/except`. -/
def collect_runs_docs (m : Obj) : List Obj → Obj
  | [] => m
  | run :: rest =>
    let st := collect_run_docs m run
    if st.2 then st.1 else collect_runs_docs st.1 rest

/-- The guard and `tests` extraction shared by the page-result loops
(lines 164-165 and 234-235): `.get('tests', {})`, tolerant of missing
keys. -/
def doc_result_tests (result : Obj) : Except String (Option (List (String × JValue))) :=
  match dictFind "results" result with
  | none => .ok none
  | some rv => do
    let hasAcc ← pyContains rv "accessibility"
    if hasAcc then do
      let acc ← pyIndex rv "accessibility"
      let testsv ← pyGetD acc "tests" (.obj [])
      match testsv with
      | .obj tests => .ok (some tests)
      | _ => .error "AttributeError: items"
    else .ok none

/-- Lines 168-209: the first page-results loop over `tests.items()`.
The `https://example.com` debugging block (lines 196-209) repeats the
line-187 condition inside that condition's else branch, so it can never
insert; it is dead code and omitted. -/
def pages_loop_a_tests (m : Obj) : List (String × JValue) → Except String Obj
  | [] => .ok m
  | (test_name, test_data) :: rest =>
    match test_data with
    | .obj td =>
      if dictMem "documentation" td then
        pages_loop_a_tests
          (docs_add_if_absent m test_name ((dictFind "documentation" td).getD .null)) rest
      else do
        let hit ←
          match dictFind test_name td with
          | none => pure false
          | some inner => pyContains inner "documentation"
        if hit then do
          let inner ← pyIndex (.obj td) test_name
          let doc ← pyIndex inner "documentation"
          pages_loop_a_tests (docs_add_if_absent m test_name doc) rest
        else pages_loop_a_tests m rest
    | _ => pages_loop_a_tests m rest

/-- Lines 161-209: the first page-results loop. -/
def pages_loop_a (m : Obj) : List Obj → Except String Obj
  | [] => .ok m
  | result :: rest => do
    match ← doc_result_tests result with
    | none => pages_loop_a m rest
    | some tests => do
      let m' ← pages_loop_a_tests m tests
      pages_loop_a m' rest

/-- Lines 216-230: `test_output_fields` — every listed test name maps to
itself. -/
def test_output_fields : List (String × String) :=
  [("images", "images"), ("tables", "tables"), ("headings", "headings"),
   ("focus_management", "focus_management"), ("page_structure", "page_structure"),
   ("accessible_names", "accessible_names"), ("landmarks", "landmarks"),
   ("forms", "forms"), ("colors", "colors"), ("html_structure", "html_structure"),
   ("animations", "animations"), ("videos", "videos")]

/-- Line 250: `test_output_fields.get(test_name, test_name)`. -/
def output_field_for (test_name : String) : String :=
  (dictFind test_name test_output_fields).getD test_name

/-- Lines 272-277 (strategy 4): scan all fields of the test data for one
carrying `documentation`; the first hit is inserted and the scan breaks. -/
def scan_fields (m : Obj) (test_name : String) : List (String × JValue) → Obj
  | [] => m
  | (_, fd) :: rest =>
    match fd with
    | .obj fdd =>
      if dictMem "documentation" fdd then
        dictSet test_name ((dictFind "documentation" fdd).getD .null) m
      else scan_fields m test_name rest
    | _ => scan_fields m test_name rest

/-- Strategy 4 entry (line 272): `test_data.items()` raises on a
non-dict. -/
def strategy4 (m : Obj) (test_name : String) (test_data : JValue) : Except String Obj :=
  match test_data with
  | .obj td => .ok (scan_fields m test_name td)
  | _ => .error "AttributeError: items"

/-- Lines 259-277: strategies 3 (underscore name match) and 4 (scan all
fields). -/
def loop_b_strat34 (m : Obj) (test_name : String) (test_data : JValue) :
    Except String Obj :=
  if test_name.data.contains '_' then do
    let present ← pyContains test_data test_name
    if present then do
      let fd ← pyIndex test_data test_name
      match fd with
      | .obj fdd =>
        if dictMem "documentation" fdd then
          .ok (dictSet test_name ((dictFind "documentation" fdd).getD .null) m)
        else strategy4 m test_name test_data
      | _ => strategy4 m test_name test_data
    else strategy4 m test_name test_data
  else strategy4 m test_name test_data

/-- Lines 241-277: the four lookup strategies for one test entry of the
comprehensive scan (called only when `test_name` is not yet cached). -/
def loop_b_one (m : Obj) (test_name : String) (test_data : JValue) :
    Except String Obj :=
  let s1 : Option JValue :=
    match test_data with
    | .obj td =>
      if dictMem "documentation" td then some ((dictFind "documentation" td).getD .null)
      else none
    | _ => none
  match s1 with
  | some doc => .ok (dictSet test_name doc m)
  | none =>
    let s2 : Option JValue :=
      match test_data with
      | .obj td =>
        match dictFind (output_field_for test_name) td with
        | some (.obj od) =>
          if dictMem "documentation" od then some ((dictFind "documentation" od).getD .null)
          else none
        | _ => none
      | _ => none
    match s2 with
    | some doc => .ok (dictSet test_name doc m)
    | none => loop_b_strat34 m test_name test_data

/-- Lines 237-277: the comprehensive scan over `tests.items()`; the top
guard (`if test_name in self.test_documentation: continue`, line 239) makes
every insertion a fresh key. -/
def pages_loop_b_tests (m : Obj) : List (String × JValue) → Except String Obj
  | [] => .ok m
  | (test_name, test_data) :: rest =>
    if dictMem test_name m then pages_loop_b_tests m rest
    else do
      let m' ← loop_b_one m test_name test_data
      pages_loop_b_tests m' rest

/-- Lines 233-277: the comprehensive page-results scan. -/
def pages_loop_b (m : Obj) : List Obj → Except String Obj
  | [] => .ok m
  | result :: rest => do
    match ← doc_result_tests result with
    | none => pages_loop_b m rest
    | some tests => do
      let m' ← pages_loop_b_tests m tests
      pages_loop_b m' rest

/-- `AccessibilityReportGenerator.collect_test_documentation`
(lines 120-280): the `test_runs` scan, then the two page-results scans. -/
def collect_test_documentation (m : Obj) (runs : List Obj) (results : List Obj) :
    Except String Obj := do
  let m₁ := collect_runs_docs m runs
  let m₂ ← pages_loop_a m₁ results
  pages_loop_b m₂ results

/-! ## The run-level documentation prescan of `generate_excel_report`
(lines 613-672, inside `try/except`) -/

/-- Lines 644-648: the three key variants stored for a run-level
documentation entry. -/
def prescan_variant_keys (test_name : String) : List String :=
  [pyLower test_name,
   pyLower (pyReplaceChar test_name '-' '_'),
   pyLower (pyReplaceChar test_name '_' '-')]

/-- Lines 651-658: insert under the first absent variant key; when that key
differs from `test_name.lower()`, also assign `test_name.lower()` —
unconditionally, overwriting any prior entry. -/
def prescan_try_keys (m : Obj) (base : String) (doc : JValue) : List String → Obj
  | [] => m
  | k :: rest =>
    if dictMem k m then prescan_try_keys m base doc rest
    else
      let m₁ := dictSet k doc m
      if k ≠ base then dictSet base doc m₁ else m₁

/-- Lines 642-658: the loop over a run's `documentation.items()`. -/
def prescan_doc_entries (m : Obj) : List (String × JValue) → Obj
  | [] => m
  | (test_name, doc) :: rest =>
    prescan_doc_entries
      (prescan_try_keys m (pyLower test_name) doc (prescan_variant_keys test_name)) rest

/-- Lines 661-667: the loop over a run's `tests.items()`; the assignment
`self.test_documentation[test_name.lower()] = test_data['documentation']`
is unguarded and overwrites any prior entry. -/
def prescan_tests_entries (m : Obj) : List (String × JValue) → Obj
  | [] => m
  | (test_name, td) :: rest =>
    match td with
    | .obj tdd =>
      if dictMem "documentation" tdd then
        prescan_tests_entries
          (dictSet (pyLower test_name) ((dictFind "documentation" tdd).getD .null) m) rest
      else prescan_tests_entries m rest
    | _ => prescan_tests_entries m rest

/-- Lines 622-667 for one run; `true` marks a raise (diagnostic prints on a
non-dict `documentation`/`tests`), swallowed at line 669 with state kept. -/
def prescan_run (m : Obj) (run : Obj) : Obj × Bool :=
  let st₁ : Obj × Bool :=
    match dictFind "documentation" run with
    | none => (m, false)
    | some (.obj entries) => (prescan_doc_entries m entries, false)
    | some _ => (m, true)
  if st₁.2 then st₁
  else
    match dictFind "tests" run with
    | none => (st₁.1, false)
    | some (.obj tests) => (prescan_tests_entries st₁.1 tests, false)
    | some _ => (st₁.1, true)

/-- Lines 613-672: the prescan over all test runs. -/
def prescan_runs (m : Obj) : List Obj → Obj
  | [] => m
  | run :: rest =>
    let st := prescan_run m run
    if st.2 then st.1 else prescan_runs st.1 rest

/-- A test run carrying run-level documentation content `"DOC-A"` for
`"forms"`. -/
def c7_run1 : Obj := [("documentation", .obj [("forms", .str "DOC-A")])]

/-- A test run carrying inline per-test documentation content `"DOC-B"` for
the same identifier `"forms"`. -/
def c7_run2 : Obj := [("tests", .obj [("forms", .obj [("documentation", .str "DOC-B")])])]

/-- A page result carrying inline documentation for `"colors"`. -/
def c7_page : Obj :=
  [("results", .obj [("accessibility", .obj [("tests", .obj [
    ("colors", .obj [("documentation", .str "DOC-C")])])])])]

/-! ## The responsive testing matrix (`generate_excel_report`, lines 901-989)

Pass 1 discovers the set of responsive test types across all pages; pass 2
emits one row per (page, declared breakpoint with results, discovered test
type).  The final in-place sort (line 987) only reorders rows and is not
modelled; the claims concern the emitted rows. -/

/-- Lines 906 / 922 / 1005 / ...:
`result.get('results', {}).get('accessibility', {})`. -/
def get_accessibility (result : Obj) : Except String JValue := do
  let rv := (dictFind "results" result).getD (.obj [])
  pyGetD rv "accessibility" (.obj [])

/-- `if accessibility and 'responsive_testing' in accessibility:
resp_testing = accessibility['responsive_testing']` (lines 907-908,
923-924). -/
def resp_testing_of (result : Obj) : Except String (Option JValue) := do
  let acc ← get_accessibility result
  if pyTruthy acc then do
    let hasRT ← pyContains acc "responsive_testing"
    if hasRT then do
      let rt ← pyIndex acc "responsive_testing"
      .ok (some rt)
    else .ok none
  else .ok none

/-- Lines 911 / 937: the check `'tests' in bp_results and 'responsive' in
bp_results['tests'] and 'tests' in bp_results['tests']['responsive']` and
the extraction of `bp_results['tests']['responsive']['tests']`. -/
def resp_tests_of (bp_results : JValue) : Except String (Option JValue) := do
  let h1 ← pyContains bp_results "tests"
  if h1 then do
    let t1 ← pyIndex bp_results "tests"
    let h2 ← pyContains t1 "responsive"
    if h2 then do
      let t2 ← pyIndex t1 "responsive"
      let h3 ← pyContains t2 "tests"
      if h3 then do
        let t3 ← pyIndex t2 "tests"
        .ok (some t3)
      else .ok none
    else .ok none
  else .ok none

/-- Pass 1, lines 910-913: union the test-type names of one page's
`breakpoint_results` into the accumulator (`.keys()` needs a dict). -/
def discover_bp_entries (acc : List String) :
    List (String × JValue) → Except String (List String)
  | [] => .ok acc
  | (_, bp_results) :: rest => do
    match ← resp_tests_of bp_results with
    | some (.obj tests) =>
      discover_bp_entries (tests.foldl (fun a p => insertUniq p.1 a) acc) rest
    | some _ => .error "AttributeError: keys"
    | none => discover_bp_entries acc rest

/-- Pass 1 for one page result (lines 905-913). -/
def discover_result (acc : List String) (result : Obj) : Except String (List String) := do
  match ← resp_testing_of result with
  | none => .ok acc
  | some rt => do
    let brv ← pyGetD rt "breakpoint_results" (.obj [])
    match brv with
    | .obj brs => discover_bp_entries acc brs
    | _ => .error "AttributeError: items"

/-- Pass 1 (lines 902-913): all responsive test types observed anywhere. -/
def discover_test_types (acc : List String) : List Obj → Except String (List String)
  | [] => .ok acc
  | r :: rest => do
    let acc' ← discover_result acc r
    discover_test_types acc' rest

/-- One row of the `Responsive Testing Matrix` sheet (lines 943-982).
`bkpt` holds the raw value from the `breakpoints` list (the `Breakpoint`
cell); `issue_count` is an int, or the string `"-"` for `Not Tested`. -/
structure RespRow where
  domain : String
  page : String
  bkpt : JValue
  test : String
  status : String
  issue_count : JValue
  issue_details : String

/-- Lines 962-966: one formatted issue line
`f"{element}: {detail} ({severity})"`. -/
def issue_detail_line (issue : JValue) : Except String String := do
  let ev ← pyGetD issue "element" (.str "")
  let iv ← pyGetD issue "id" (.str "")
  let dv ← pyGetD issue "details" (.str "")
  let sv ← pyGetD issue "severity" (.str "")
  let element := pyStrip (pyStr ev ++ " " ++ pyStr iv)
  .ok (element ++ ": " ++ pyStr dv ++ " (" ++ pyStr sv ++ ")")

/-- Lines 961-966: format every issue of the list. -/
def issue_detail_lines : List JValue → Except String (List String)
  | [] => .ok []
  | i :: rest => do
    let l ← issue_detail_line i
    let ls ← issue_detail_lines rest
    .ok (l :: ls)

/-- Lines 950-979: the row for one test type at one breakpoint.  `tv` is
`resp_tests`; a test type not present yields status `"Not Tested"`. -/
def resp_row (domain page : String) (bpv : JValue) (tv : JValue)
    (test_name : String) : Except String RespRow := do
  let hit ← pyContains tv test_name
  if hit then do
    let test_data ← pyIndex tv test_name
    let issuesv ← pyGetD test_data "issues" (.list [])
    let icount ← pyLen issuesv
    if icount > 0 then do
      let items ← pyIter issuesv
      let lines ← issue_detail_lines items
      let d0 := pyJoin "\n" (lines.take 3)
      let d :=
        if lines.length > 3 then
          d0 ++ "\n...and " ++ toString (lines.length - 3) ++ " more"
        else d0
      .ok ⟨domain, page, bpv, test_name, "Issues Found", .int icount, d⟩
    else
      .ok ⟨domain, page, bpv, test_name, "Pass", .int 0, "No issues detected"⟩
  else
    .ok ⟨domain, page, bpv, test_name, "Not Tested", .str "-", "-"⟩

/-- Lines 941-982: one row per discovered test type (in sorted order). -/
def rows_for_tests (domain page : String) (bpv : JValue) (tv : JValue) :
    List String → Except String (List RespRow)
  | [] => .ok []
  | t :: rest => do
    let row ← resp_row domain page bpv tv t
    let rows ← rows_for_tests domain page bpv tv rest
    .ok (row :: rows)

/-- Lines 930-982: the rows of one declared breakpoint.  A breakpoint whose
`str(bp)` key is absent from `breakpoint_results`, or whose entry lacks the
`tests.responsive.tests` structure, emits no rows at all. -/
def rows_for_bp (domain page : String) (sorted_types : List String)
    (rt : JValue) (bpv : JValue) : Except String (List RespRow) := do
  let bp_str := pyStr bpv
  let brv ← pyGetD rt "breakpoint_results" (.obj [])
  let hit ← pyContains brv bp_str
  if hit then do
    let bp_results ← pyIndex brv bp_str
    match ← resp_tests_of bp_results with
    | some tv => rows_for_tests domain page bpv tv sorted_types
    | none => .ok []
  else .ok []

/-- The loop over the declared `breakpoints` (line 930). -/
def rows_for_bps (domain page : String) (sorted_types : List String)
    (rt : JValue) : List JValue → Except String (List RespRow)
  | [] => .ok []
  | bpv :: rest => do
    let rows ← rows_for_bp domain page sorted_types rt bpv
    let more ← rows_for_bps domain page sorted_types rt rest
    .ok (rows ++ more)

/-- Lines 917-920: domain and page of a URL
(`url.replace('https://','').replace('http://','').split('/')`). -/
def domain_page_of (urlv : JValue) : Except String (String × String) :=
  match urlv with
  | .str url =>
    let stripped := pyReplaceSub (pyReplaceSub url "https://" "") "http://" ""
    let parts := pySplitChar stripped '/'
    let domain := parts.headD ""
    let page := if parts.length > 1 then pyJoin "/" parts.tail else ""
    .ok (domain, page)
  | _ => .error "AttributeError: replace"

/-- Pass 2 for one page result (lines 916-982). -/
def rows_for_result (sorted_types : List String) (result : Obj) :
    Except String (List RespRow) := do
  let urlv := (dictFind "url" result).getD (.str "Unknown URL")
  let dp ← domain_page_of urlv
  match ← resp_testing_of result with
  | none => .ok []
  | some rt => do
    let bpsv ← pyGetD rt "breakpoints" (.list [])
    let bps ← pyIter bpsv
    rows_for_bps dp.1 dp.2 sorted_types rt bps

/-- Pass 2 over all page results (lines 915-982). -/
def matrix_rows_go (sorted_types : List String) : List Obj → Except String (List RespRow)
  | [] => .ok []
  | r :: rest => do
    let rows ← rows_for_result sorted_types r
    let more ← matrix_rows_go sorted_types rest
    .ok (rows ++ more)

/-- The `Responsive Testing Matrix` rows as emitted (lines 901-982). -/
def responsive_matrix_rows (results : List Obj) : Except String (List RespRow) := do
  let types ← discover_test_types [] results
  matrix_rows_go (sortStrings types) results

/-- A breakpoint of `rt` that has a well-formed result tree: its `str(bp)`
key is in `breakpoint_results` and the entry carries
`tests.responsive.tests`. -/
def bp_has_tree (rt : JValue) (bpv : JValue) : Prop :=
  ∃ brv bpr tv,
    pyGetD rt "breakpoint_results" (.obj []) = .ok brv ∧
    pyContains brv (pyStr bpv) = .ok true ∧
    pyIndex brv (pyStr bpv) = .ok bpr ∧
    resp_tests_of bpr = .ok (some tv)

/-! ## `AccessibilityReportGenerator._flatten_dict` (lines 571-582) -/

/-- The dotted key: `f"{prefix}.{key}" if prefix else key` (line 575). -/
def fullkey (p k : String) : String :=
  if p = "" then k else p ++ "." ++ k

mutual
/-- Lines 576-581: handle one `(key, value)` entry against the accumulated
`items` dict: recurse into dicts (`items.update(...)`), serialise lists via
`json.dumps`, stringify everything else. -/
def flatten_entry (items : List (String × JValue)) (p k : String) :
    JValue → List (String × JValue)
  | .obj f => dictUpdate items (flatten_go f (fullkey p k) [])
  | .list xs => dictSet (fullkey p k) (.str (jsonDumps (.list xs))) items
  | v => dictSet (fullkey p k) (.str (pyStr v)) items

/-- The loop over `d.items()` threading the `items` accumulator. -/
def flatten_go : List (String × JValue) → String → List (String × JValue) →
    List (String × JValue)
  | [], _, items => items
  | (k, v) :: rest, p, items => flatten_go rest p (flatten_entry items p k v)
end

/-- `AccessibilityReportGenerator._flatten_dict` (lines 571-582); values are
kept as `JValue.str` leaves to state that the output is all-strings. -/
def flatten_dict (d : List (String × JValue)) (p : String) : List (String × JValue) :=
  flatten_go d p []

/-! ## Derived notions used by the theorems -/

/-- The page-result document has no `results` key. -/
def missing_results (r : Obj) : Prop := dictFind "results" r = none

/-- The document's `results` value is a dict without `accessibility`. -/
def missing_accessibility (r : Obj) : Prop :=
  ∃ f, dictFind "results" r = some (.obj f) ∧ dictFind "accessibility" f = none

/-- The document's `results.accessibility` value is a dict without
`tests`. -/
def missing_tests (r : Obj) : Prop :=
  ∃ f g, dictFind "results" r = some (.obj f) ∧
    dictFind "accessibility" f = some (.obj g) ∧ dictFind "tests" g = none

/-- Every key that any of the four lookups of the variant-closure property
can probe: the five naming variants of `T`, of `T.upper()`, of
`T.replace('_','-')` and of `T.replace('-','_')`. -/
def all_variant_keys (T : String) : List String :=
  test_name_variants T ++ test_name_variants (pyUpper T) ++
  test_name_variants (pyReplaceChar T '_' '-') ++
  test_name_variants (pyReplaceChar T '-' '_')

/-- Every value of the mapping is a string leaf. -/
def all_str (l : List (String × JValue)) : Prop :=
  ∀ kv ∈ l, ∃ s, kv.2 = JValue.str s

/-- A page result with `results.accessibility` present but no `tests` key:
the summary skips it, while the URL/site tables index `['tests']`. -/
def c9_bad_page : Obj :=
  [("url", .str "https://ex.org/a"),
   ("results", .obj [("accessibility", .obj [("other", .null)])])]

/-- A well-formed breakpoint result tree with the two responsive test types
`overflow` and `touchTargets`, both clean. -/
def c6_tree : JValue := .obj [("tests", .obj [("responsive", .obj [("tests", .obj [
  ("overflow", .obj [("issues", .list [])]),
  ("touchTargets", .obj [("issues", .list [])])])])])]

/-- A page declaring breakpoints 320/768/1024 whose `breakpoint_results`
only carries the `"320"` entry. -/
def c6_page : Obj := [
  ("url", .str "https://example.com/home"),
  ("results", .obj [("accessibility", .obj [
    ("responsive_testing", .obj [
      ("breakpoints", .list [.int 320, .int 768, .int 1024]),
      ("breakpoint_results", .obj [("320", c6_tree)])])])])]

/-- A `responsive_testing` block whose three declared breakpoints all carry
well-formed result trees. -/
def c6_rt_full : JValue := .obj [
  ("breakpoints", .list [.int 320, .int 768, .int 1024]),
  ("breakpoint_results", .obj [("320", c6_tree), ("768", c6_tree), ("1024", c6_tree)])]

/-- A detail value qualifies as a multiplicity source: a non-empty list, a
positive integer, or Python `True` (a `bool` is an `int`). -/
def qualifies (v : JValue) : Bool :=
  match detail_count v with
  | some (_, c) => c > 0
  | none => false

/-- The total multiplicity contributed by a `details` mapping: the sum of
the counts of all qualifying details. -/
def details_total : List (String × JValue) → Int
  | [] => 0
  | (_, dv) :: rest =>
    (match detail_count dv with
     | some (_, c) => if c > 0 then c else 0
     | none => 0) + details_total rest

/-- Sum of the values of an `issues_by_type` mapping. -/
def sumValues : List (String × Int) → Int
  | [] => 0
  | (_, v) :: rest => v + sumValues rest

/-- Conservation invariant of the summary loop state. -/
def conserved (t : IssueTotals) : Prop :=
  t.total_issues = sumValues t.issues_by_type

/-! ## Concrete inputs used by witnesses and counterexamples -/

/-- The DocumentationRecord of the spec's end-to-end example, registered
under `"forms"`. -/
def c1_doc : JValue := .obj [
  ("testName", .str "Form Accessibility Analysis"),
  ("tests", .list [.obj [
    ("name", .str "Input Field Labeling"),
    ("resultsFields", .obj [("pageFlags.hasInputsWithoutLabels", .str "desc")])]])]

/-- The PageResult of the spec's end-to-end example:
`tests.forms.forms.pageFlags = {hasInputsWithoutLabels: true}` with the
`details` mapping (scanned as `pageFlags.details`, spec section 4.4)
carrying `inputsWithoutLabels = [{}, {}]`. -/
def c1_page : Obj := [
  ("url", .str "https://example.com"),
  ("results", .obj [("accessibility", .obj [("tests", .obj [
    ("forms", .obj [("forms", .obj [("pageFlags", .obj [
      ("hasInputsWithoutLabels", .bool true),
      ("details", .obj [("inputsWithoutLabels", .list [.obj [], .obj []])])])])])])])])]

/-- A page with one true issue flag and no qualifying sibling detail. -/
def c2_page : Obj := [
  ("url", .str "https://example.com"),
  ("results", .obj [("accessibility", .obj [("tests", .obj [
    ("widgets", .obj [("widgets", .obj [("pageFlags", .obj [
      ("hasBadThing", .bool true)])])])])])])]

/-- A page with one true issue flag and two qualifying sibling details: a
2-element list followed by the integer 3. -/
def c3_page : Obj := [
  ("url", .str "https://example.com"),
  ("results", .obj [("accessibility", .obj [("tests", .obj [
    ("widgets", .obj [("widgets", .obj [("pageFlags", .obj [
      ("hasBadThing", .bool true),
      ("details", .obj [("itemsA", .list [.null, .null]), ("itemsB", .int 3)])])])])])])])]

/-! ## Supporting lemmas -/

@[simp] theorem dictFind_nil (k : String) : dictFind (α := α) k [] = none := rfl

@[simp] theorem dictFind_cons (k k' : String) (v : α) (rest : List (String × α)) :
    dictFind k ((k', v) :: rest) =
      if k' = k then some v else dictFind k rest := rfl

theorem dictFind_append_left {k : String} {v : α} {d : List (String × α)}
    (e : List (String × α)) (h : dictFind k d = some v) :
    dictFind k (d ++ e) = some v := by
  induction d with
  | nil => simp [dictFind] at h
  | cons p rest ih =>
    obtain ⟨k', v'⟩ := p
    by_cases hk : k' = k <;> simp_all [dictFind]

/-- A `dictSet` with a key different from `k₀` preserves the binding of
`k₀`. -/
theorem dictFind_dictSet_of_ne {k k₀ : String} {v : α} (d : List (String × α))
    (hne : k ≠ k₀) : dictFind k₀ (dictSet k v d) = dictFind k₀ d := by
  induction d with
  | nil => simp [dictSet, dictFind, hne]
  | cons p rest ih =>
    obtain ⟨k', v'⟩ := p
    simp only [dictSet]
    by_cases h1 : k' = k
    · subst h1
      simp [dictFind, hne]
    · simp only [if_neg h1, dictFind_cons]
      by_cases h2 : k' = k₀ <;> simp [h2, ih]

theorem dictFind_dictSet_self (k : String) (v : α) (m : List (String × α)) :
    dictFind k (dictSet k v m) = some v := by
  induction m with
  | nil => simp [dictSet, dictFind]
  | cons p rest ih =>
    obtain ⟨k', v'⟩ := p
    by_cases h : k' = k <;> simp [dictSet, dictFind, h, ih]

theorem dictSet_dictSet_self (k : String) (v w : α) (m : List (String × α)) :
    dictSet k v (dictSet k w m) = dictSet k v m := by
  induction m with
  | nil => simp [dictSet]
  | cons p rest ih =>
    obtain ⟨k', v'⟩ := p
    by_cases h : k' = k <;> simp [dictSet, h, ih]

theorem addIssue_addIssue (t : IssueTotals) (l : String) (c₁ c₂ : Int) :
    addIssue (addIssue t l c₁) l c₂ = addIssue t l (c₁ + c₂) := by
  simp [addIssue, dictFind_dictSet_self, dictSet_dictSet_self, add_assoc]

theorem sumValues_dictSet_add (m : List (String × Int)) (k : String) (c : Int) :
    sumValues (dictSet k ((dictFind k m).getD 0 + c) m) = sumValues m + c := by
  induction m with
  | nil => simp [dictSet, dictFind, sumValues]
  | cons p rest ih =>
    obtain ⟨k', v'⟩ := p
    by_cases h : k' = k
    · simp [dictSet, dictFind, h, sumValues]
      omega
    · simp [dictSet, dictFind, h, sumValues, ih]
      omega

theorem sumValues_addIssue (t : IssueTotals) (l : String) (c : Int) :
    sumValues (addIssue t l c).issues_by_type = sumValues t.issues_by_type + c := by
  simp [addIssue, sumValues_dictSet_add]

theorem details_total_nonneg (details : List (String × JValue)) :
    0 ≤ details_total details := by
  induction details with
  | nil => simp [details_total]
  | cons p rest ih =>
    obtain ⟨k, dv⟩ := p
    simp only [details_total]
    cases hdc : detail_count dv with
    | none => simpa
    | some pr =>
      obtain ⟨raw, cnt⟩ := pr
      by_cases hpos : cnt > 0 <;> simp [hpos] <;> omega

theorem firstPresent_nil (l : List String) : firstPresent ([] : Obj) l = none := by
  induction l with
  | nil => rfl
  | cons v rest ih => simp [firstPresent, dictMem, dictFind, ih]

theorem conserved_addIssue {t : IssueTotals} (l : String) (c : Int)
    (h : conserved t) : conserved (addIssue t l c) := by
  simp [conserved, addIssue, sumValues_dictSet_add] at h ⊢
  omega

theorem conserved_process_details {t : IssueTotals} (label : String) (c : Int)
    (details : List (String × JValue)) (h : conserved t) :
    conserved (process_details label c t details) := by
  induction details generalizing c t with
  | nil => simpa [process_details]
  | cons p rest ih =>
    obtain ⟨k, dv⟩ := p
    simp only [process_details]
    cases hdc : detail_count dv with
    | none => exact ih c h
    | some pr =>
      obtain ⟨raw, cnt⟩ := pr
      by_cases hpos : cnt > 0
      · simp only [hpos, if_pos]
        exact ih cnt (conserved_addIssue label cnt h)
      · simp only [hpos, if_neg, if_false]
        exact ih cnt h

theorem conserved_process_flags {docs : Obj} {tn : String} {pf : Obj} {t t' : IssueTotals}
    {flags : List (String × JValue)}
    (hrun : process_flags docs tn pf t flags = .ok t') (h : conserved t) :
    conserved t' := by
  induction flags generalizing t with
  | nil =>
    simp only [process_flags, Except.ok.injEq] at hrun
    exact hrun ▸ h
  | cons p rest ih =>
    obtain ⟨fn, fv⟩ := p
    simp only [process_flags] at hrun
    by_cases hfi : flag_is_issue fv fn
    · simp only [hfi, if_pos] at hrun
      cases hlab : format_issue_name docs tn fn with
      | error e => simp [hlab, Bind.bind, Except.bind] at hrun
      | ok label =>
        cases hdet : get_details pf with
        | error e => simp [hlab, hdet, Bind.bind, Except.bind] at hrun
        | ok details =>
          simp only [hlab, hdet, Bind.bind, Except.bind] at hrun
          exact ih hrun (conserved_process_details label 1 details h)
    · simp only [hfi, if_neg, if_false] at hrun
      exact ih hrun h

theorem conserved_process_tests {docs : Obj} {t t' : IssueTotals}
    {tests : List (String × JValue)}
    (hrun : process_tests docs t tests = .ok t') (h : conserved t) :
    conserved t' := by
  induction tests generalizing t with
  | nil =>
    simp only [process_tests, Except.ok.injEq] at hrun
    exact hrun ▸ h
  | cons p rest ih =>
    obtain ⟨tn, td⟩ := p
    cases td with
    | obj tdl =>
      simp only [process_tests] at hrun
      cases hpf : pyGetD ((dictFind tn tdl).getD (.obj [])) "pageFlags" (.obj []) with
      | error e => simp [hpf, Bind.bind, Except.bind] at hrun
      | ok pfv =>
        simp only [hpf, Bind.bind, Except.bind] at hrun
        by_cases htr : pyTruthy pfv
        · simp only [htr, if_pos] at hrun
          cases pfv with
          | obj pf =>
            cases hfl : process_flags docs tn pf t pf with
            | error e => simp [hfl, Bind.bind, Except.bind] at hrun
            | ok t₁ =>
              simp only [hfl, Bind.bind, Except.bind] at hrun
              exact ih hrun (conserved_process_flags hfl h)
          | null => simp at hrun
          | bool b => simp at hrun
          | int n => simp at hrun
          | str s => simp at hrun
          | list xs => simp at hrun
        · simp only [htr, if_neg, if_false] at hrun
          exact ih hrun h
    | null => exact ih (by simpa [process_tests] using hrun) h
    | bool b => exact ih (by simpa [process_tests] using hrun) h
    | int n => exact ih (by simpa [process_tests] using hrun) h
    | str s => exact ih (by simpa [process_tests] using hrun) h
    | list xs => exact ih (by simpa [process_tests] using hrun) h

theorem conserved_process_page {docs : Obj} {t t' : IssueTotals} {result : Obj}
    (hrun : process_page docs t result = .ok t') (h : conserved t) :
    conserved t' := by
  unfold process_page at hrun
  cases hres : dictFind "results" result with
  | none =>
    simp only [hres, Except.ok.injEq] at hrun
    exact hrun ▸ h
  | some rv =>
    simp only [hres] at hrun
    cases hc : pyContains rv "accessibility" with
    | error e => simp [hc, Bind.bind, Except.bind] at hrun
    | ok b =>
      simp only [hc, Bind.bind, Except.bind] at hrun
      cases b with
      | true =>
        rw [if_pos rfl] at hrun
        cases hidx : pyIndex rv "accessibility" with
        | error e => simp [hidx, Bind.bind, Except.bind] at hrun
        | ok acc =>
          simp only [hidx, Bind.bind, Except.bind] at hrun
          cases hg : pyGetD acc "tests" (.obj []) with
          | error e => simp [hg, Bind.bind, Except.bind] at hrun
          | ok testsv =>
            simp only [hg, Bind.bind, Except.bind] at hrun
            cases testsv with
            | obj tests => exact conserved_process_tests hrun h
            | null => simp at hrun
            | bool b' => simp at hrun
            | int n => simp at hrun
            | str s => simp at hrun
            | list xs => simp at hrun
      | false =>
        rw [if_neg (by simp)] at hrun
        cases hrun
        exact h

theorem conserved_process_pages {docs : Obj} {t t' : IssueTotals} {results : List Obj}
    (hrun : process_pages docs t results = .ok t') (h : conserved t) :
    conserved t' := by
  induction results generalizing t with
  | nil =>
    simp only [process_pages, Except.ok.injEq] at hrun
    exact hrun ▸ h
  | cons r rest ih =>
    simp only [process_pages] at hrun
    cases hp : process_page docs t r with
    | error e => simp [hp, Bind.bind, Except.bind] at hrun
    | ok t₁ =>
      simp only [hp, Bind.bind, Except.bind] at hrun
      exact ih hrun (conserved_process_page hp h)

/-! ## Claim theorems -/

/-- C1: for a single page result for `"https://example.com"` whose `forms`
test's nested same-named object has `pageFlags.hasInputsWithoutLabels = true`
and whose `pageFlags.details` mapping carries
`inputsWithoutLabels = [{}, {}]`, with a DocumentationRecord registered under
`"forms"` whose tests include the check `"Input Field Labeling"` of testName
`"Form Accessibility Analysis"` with a `resultsFields` key
`"pageFlags.hasInputsWithoutLabels"`, `calculate_summary` yields
`issues_by_type["Form Accessibility Analysis - Input Field Labeling"] = 2`
and `total_issues = 2`. -/
theorem c1_end_to_end :
    (calculate_summary [("forms", c1_doc)] [c1_page]).map
      (fun s => (dictFind "Form Accessibility Analysis - Input Field Labeling" s.issues_by_type,
                 s.total_issues)) = .ok (some 2, 2) := rfl

/-- C2 counterexample: a page whose only true issue-prefixed flag
(`hasBadThing`) has no qualifying sibling detail yields `total_issues = 0`
and no `issues_by_type` entry — not the count of 1 with entry 1 the claim
requires. -/
theorem c2_counterexample :
    (calculate_summary [] [c2_page]).map
      (fun s => (s.total_issues, dictFind "Widgets: Bad Thing" s.issues_by_type))
      = .ok (0, none) ∧
    (Except.ok ((0 : Int), (none : Option Int)) : Except String (Int × Option Int))
      ≠ .ok (1, some 1) :=
  ⟨rfl, by simp⟩

/-- C2 amended: in the summary computation, a boolean, true, issue-prefixed
page flag with no qualifying sibling detail (no detail value that is a
non-empty list, positive integer, or `True`) is not counted at all: the
details loop leaves `total_issues` and `issues_by_type` unchanged (the
`count = 1` default is never accumulated because accumulation only happens
inside the qualifying-detail branch). -/
theorem c2_amended (label : String) (c : Int) (t : IssueTotals)
    (details : List (String × JValue))
    (h : ∀ p ∈ details, qualifies p.2 = false) :
    process_details label c t details = t := by
  induction details generalizing c with
  | nil => rfl
  | cons p rest ih =>
    obtain ⟨k, dv⟩ := p
    have hq : qualifies dv = false := h (k, dv) (List.mem_cons_self _ _)
    have hrest : ∀ p ∈ rest, qualifies p.2 = false :=
      fun p hp => h p (List.mem_cons_of_mem _ hp)
    simp only [process_details]
    cases hdc : detail_count dv with
    | none => exact ih c hrest
    | some pr =>
      obtain ⟨raw, cnt⟩ := pr
      have : ¬ cnt > 0 := by
        simp only [qualifies, hdc] at hq
        simpa using hq
      simp only [this, if_neg, if_false]
      exact ih cnt hrest

/-- C2 amended, witness: a true `hasBadThing` flag whose only sibling detail
is a string contributes nothing. -/
theorem c2_amended_witness :
    process_details "Widgets: Bad Thing" 1 ⟨0, []⟩ [("note", JValue.str "x")] = ⟨0, []⟩ :=
  c2_amended "Widgets: Bad Thing" 1 ⟨0, []⟩ [("note", JValue.str "x")] (by
    intro p hp
    simp only [List.mem_singleton] at hp
    subst hp
    rfl)

/-- C3 counterexample: one true issue flag whose `details` carry a 2-element
list followed by the integer 3.  Under the claim (first qualifying detail
wins, accumulated exactly once) the flag would contribute 2; the code
accumulates every qualifying detail and yields 5. -/
theorem c3_counterexample :
    (calculate_summary [] [c3_page]).map
      (fun s => (s.total_issues, dictFind "Widgets: Bad Thing" s.issues_by_type))
      = .ok (5, some 5) ∧
    (Except.ok ((5 : Int), (some 5 : Option Int)) : Except String (Int × Option Int))
      ≠ .ok (2, some 2) :=
  ⟨rfl, by simp⟩

/-- C3 amended: when several sibling details qualify for one true
issue-prefixed flag, every qualifying detail's length/value is accumulated
(not only the first): the flag contributes the *sum* of all qualifying
counts to `total_issues` and to its `issues_by_type` entry, and no error is
raised (the details loop is total). -/
theorem c3_amended (label : String) (c : Int) (t : IssueTotals)
    (details : List (String × JValue)) :
    process_details label c t details =
      if details_total details = 0 then t
      else addIssue t label (details_total details) := by
  induction details generalizing c t with
  | nil => rfl
  | cons p rest ih =>
    obtain ⟨k, dv⟩ := p
    simp only [process_details, details_total]
    cases hdc : detail_count dv with
    | none => simpa using ih c t
    | some pr =>
      obtain ⟨raw, cnt⟩ := pr
      by_cases hpos : cnt > 0
      · simp only [hpos, if_pos]
        rw [ih cnt (addIssue t label cnt)]
        have hnn := details_total_nonneg rest
        have h1 : ¬ (cnt + details_total rest = 0) := by omega
        have h2 : ¬ cnt = 0 := by omega
        by_cases hz : details_total rest = 0
        · simp [hz, h1, h2]
        · simp [hz, h1, h2, addIssue_addIssue]
      · simp only [hpos, if_neg, if_false]
        have : (if cnt > 0 then cnt else 0) = 0 := by simp [hpos]
        simpa [this] using ih cnt t

/-- C4: after `calculate_summary` on any list of page results, the sum of
the values of `issues_by_type` equals `total_issues`. -/
theorem c4_conservation (docs : Obj) (results : List Obj) (s : Summary)
    (h : calculate_summary docs results = .ok s) :
    s.total_issues = sumValues s.issues_by_type := by
  unfold calculate_summary at h
  cases hpp : process_pages docs ⟨0, []⟩ results with
  | error e => simp [hpp, Bind.bind, Except.bind] at h
  | ok t =>
    cases hc : count_pages_with_issues results with
    | error e => simp [hpp, hc, Bind.bind, Except.bind] at h
    | ok n =>
      simp only [hpp, hc, Bind.bind, Except.bind, Except.ok.injEq] at h
      have hcons : conserved t :=
        conserved_process_pages hpp (by simp [conserved, sumValues])
      rw [← h]
      exact hcons

/-- C4 witness: conservation at the end-to-end example input. -/
theorem c4_conservation_witness :
    (2 : Int) = sumValues [("Form Accessibility Analysis - Input Field Labeling", 2)] :=
  c4_conservation [("forms", c1_doc)] [c1_page]
    ⟨1, 1, 2, [("Form Accessibility Analysis - Input Field Labeling", 2)]⟩ rfl

/-- C5 counterexample: calling the label resolver with the flag name
`"noPrefix"`, which lacks the `has` prefix, does not raise: it returns the
fallback label `"Forms: No Prefix"` (the source strips nothing and has no
raise statement on this path). -/
theorem c5_counterexample :
    pyStartsWith "noPrefix" "has" = false ∧
    format_issue_name [] "forms" "noPrefix" = .ok "Forms: No Prefix" :=
  ⟨rfl, rfl⟩

/-- C5 amended: the issue-label resolver never fails on a flag name lacking
the `has` prefix; it treats the whole flag name as the flag text and (with
no documentation registered for the test) returns the formatted fallback
label. -/
theorem c5_amended (test_name flag_name : String)
    (h : pyStartsWith flag_name "has" = false) :
    format_issue_name [] test_name flag_name =
      .ok (format_test_name test_name ++ ": " ++ issue_type_of flag_name) := by
  unfold format_issue_name lookup_doc_variants
  rw [firstPresent_nil]
  simp [h]

/-- C5 amended, witness. -/
theorem c5_amended_witness :
    format_issue_name [] "forms" "noPrefix" =
      .ok (format_test_name "forms" ++ ": " ++ issue_type_of "noPrefix") :=
  c5_amended "forms" "noPrefix" rfl

/-! ## Flattener lemmas (C10) -/

@[simp] theorem dictUpdate_nil (m : List (String × α)) : dictUpdate m [] = m := rfl

theorem dictUpdate_cons (m : List (String × α)) (p : String × α) (e : List (String × α)) :
    dictUpdate m (p :: e) = dictUpdate (dictSet p.1 p.2 m) e := rfl

theorem all_str_dictSet {m : List (String × JValue)} (k : String) (s : String)
    (h : all_str m) : all_str (dictSet k (.str s) m) := by
  induction m with
  | nil =>
    intro kv hkv
    simp only [dictSet, List.mem_singleton] at hkv
    subst hkv
    exact ⟨s, rfl⟩
  | cons p rest ih =>
    obtain ⟨k', v'⟩ := p
    intro kv hkv
    simp only [dictSet] at hkv
    by_cases hk : k' = k
    · simp only [hk, if_pos, List.mem_cons] at hkv
      rcases hkv with h1 | h1
      · subst h1; exact ⟨s, rfl⟩
      · exact h kv (List.mem_cons_of_mem _ h1)
    · simp only [if_neg hk, List.mem_cons] at hkv
      rcases hkv with h1 | h1
      · subst h1; exact h (k', v') (List.mem_cons_self _ _)
      · exact ih (fun kv hkv => h kv (List.mem_cons_of_mem _ hkv)) kv h1

theorem all_str_dictUpdate {m e : List (String × JValue)} (h1 : all_str m)
    (h2 : all_str e) : all_str (dictUpdate m e) := by
  induction e generalizing m with
  | nil => simpa
  | cons p rest ih =>
    obtain ⟨k, v⟩ := p
    obtain ⟨s, hs⟩ := h2 (k, v) (List.mem_cons_self _ _)
    rw [dictUpdate_cons]
    simp only at hs
    subst hs
    exact ih (all_str_dictSet k s h1) (fun kv hkv => h2 kv (List.mem_cons_of_mem _ hkv))

mutual
theorem flatten_entry_all_str (items : List (String × JValue)) (p k : String)
    (v : JValue) (h : all_str items) : all_str (flatten_entry items p k v) := by
  cases v with
  | obj f =>
    exact all_str_dictUpdate h
      (flatten_go_all_str f (fullkey p k) [] (by intro kv hkv; cases hkv))
  | list xs => exact all_str_dictSet _ _ h
  | null => exact all_str_dictSet _ _ h
  | bool b => exact all_str_dictSet _ _ h
  | int n => exact all_str_dictSet _ _ h
  | str s => exact all_str_dictSet _ _ h

theorem flatten_go_all_str (d : List (String × JValue)) (p : String)
    (items : List (String × JValue)) (h : all_str items) :
    all_str (flatten_go d p items) := by
  cases d with
  | nil => exact h
  | cons q rest =>
    exact flatten_go_all_str rest p _ (flatten_entry_all_str items p q.1 q.2 h)
end

theorem flatten_go_append (a b : List (String × JValue)) (p : String)
    (items : List (String × JValue)) :
    flatten_go (a ++ b) p items = flatten_go b p (flatten_go a p items) := by
  induction a generalizing items with
  | nil => rfl
  | cons q rest ih =>
    obtain ⟨k, v⟩ := q
    simp only [List.cons_append, flatten_go]
    exact ih _

/-- C10: every value in the flattener's output is a string (lists are
rendered as their JSON text, other non-mapping values are stringified,
mappings are always recursed into), and a key whose value is an empty
mapping contributes no output key at all: deleting such an entry from the
input leaves the flattened row unchanged, so its dotted path is absent
unless another entry produces it. -/
theorem c10_flatten :
    (∀ (d : List (String × JValue)) (p : String) (kv : String × JValue),
        kv ∈ flatten_dict d p → ∃ s, kv.2 = JValue.str s) ∧
    (∀ (d₁ d₂ : List (String × JValue)) (k p : String),
        flatten_dict (d₁ ++ (k, JValue.obj []) :: d₂) p = flatten_dict (d₁ ++ d₂) p) := by
  constructor
  · intro d p kv hkv
    exact flatten_go_all_str d p [] (by intro kv h; cases h) kv hkv
  · intro d₁ d₂ k p
    unfold flatten_dict
    rw [flatten_go_append, flatten_go_append]
    rfl

/-- C10 witness: the flattened form of `{a: {b: 1}}` maps `"a.b"` to the
string `"1"`. -/
theorem c10_flatten_witness :
    ∃ s, (("a.b", JValue.str "1") : String × JValue).2 = JValue.str s :=
  c10_flatten.1 [("a", .obj [("b", .int 1)])] "" ("a.b", .str "1")
    (show ("a.b", JValue.str "1") ∈ [("a.b", JValue.str "1")] from
      List.mem_singleton.mpr rfl)

/-! ## Breakpoint pivot lemmas (C6) -/

theorem resp_row_spec (domain page : String) (bpv tv : JValue) (t : String)
    (row : RespRow) (hok : resp_row domain page bpv tv t = .ok row) :
    row.test = t ∧
    (row.status = "Issues Found" ∨ row.status = "Pass" ∨ row.status = "Not Tested") ∧
    (pyContains tv t = .ok false → row.status = "Not Tested") := by
  unfold resp_row at hok
  cases hc : pyContains tv t with
  | error e => simp [hc, Bind.bind, Except.bind] at hok
  | ok hit =>
    simp only [hc, Bind.bind, Except.bind] at hok
    cases hit with
    | false =>
      rw [if_neg (by simp)] at hok
      cases hok
      exact ⟨rfl, Or.inr (Or.inr rfl), fun _ => rfl⟩
    | true =>
      rw [if_pos rfl] at hok
      cases hidx : pyIndex tv t with
      | error e => simp [hidx, Bind.bind, Except.bind] at hok
      | ok test_data =>
        simp only [hidx, Bind.bind, Except.bind] at hok
        cases hiss : pyGetD test_data "issues" (.list []) with
        | error e => simp [hiss, Bind.bind, Except.bind] at hok
        | ok issuesv =>
          simp only [hiss, Bind.bind, Except.bind] at hok
          cases hlen : pyLen issuesv with
          | error e => simp [hlen, Bind.bind, Except.bind] at hok
          | ok icount =>
            simp only [hlen, Bind.bind, Except.bind] at hok
            by_cases hpos : icount > 0
            · rw [if_pos hpos] at hok
              cases hit2 : pyIter issuesv with
              | error e => simp [hit2, Bind.bind, Except.bind] at hok
              | ok items =>
                simp only [hit2, Bind.bind, Except.bind] at hok
                cases hlines : issue_detail_lines items with
                | error e => simp [hlines, Bind.bind, Except.bind] at hok
                | ok lines =>
                  simp only [hlines, Bind.bind, Except.bind] at hok
                  cases hok
                  exact ⟨rfl, Or.inl rfl, fun hcf => by simp at hcf⟩
            · rw [if_neg hpos] at hok
              cases hok
              exact ⟨rfl, Or.inr (Or.inl rfl), fun hcf => by simp at hcf⟩

theorem rows_for_tests_spec (domain page : String) (bpv tv : JValue)
    (T : List String) (rows : List RespRow)
    (hok : rows_for_tests domain page bpv tv T = .ok rows) :
    rows.length = T.length ∧
    ∀ row ∈ rows,
      (row.status = "Issues Found" ∨ row.status = "Pass" ∨ row.status = "Not Tested") ∧
      (pyContains tv row.test = .ok false → row.status = "Not Tested") := by
  induction T generalizing rows with
  | nil =>
    simp only [rows_for_tests, Except.ok.injEq] at hok
    subst hok
    exact ⟨rfl, by intro row h; cases h⟩
  | cons t rest ih =>
    simp only [rows_for_tests] at hok
    cases hr : resp_row domain page bpv tv t with
    | error e => simp [hr, Bind.bind, Except.bind] at hok
    | ok row =>
      simp only [hr, Bind.bind, Except.bind] at hok
      cases hrs : rows_for_tests domain page bpv tv rest with
      | error e => simp [hrs, Bind.bind, Except.bind] at hok
      | ok rows' =>
        simp only [hrs, Bind.bind, Except.bind] at hok
        cases hok
        obtain ⟨hlen, hmem⟩ := ih rows' hrs
        obtain ⟨htest, hstat, himp⟩ := resp_row_spec domain page bpv tv t row hr
        refine ⟨by simp [hlen], ?_⟩
        intro r hm
        rcases List.mem_cons.mp hm with h1 | h1
        · subst h1
          exact ⟨hstat, fun hcf => himp (by rwa [htest] at hcf)⟩
        · exact hmem r h1

theorem rows_for_bp_tree (domain page : String) (T : List String) (rt bpv : JValue)
    (rows : List RespRow) (ht : bp_has_tree rt bpv)
    (hok : rows_for_bp domain page T rt bpv = .ok rows) :
    rows.length = T.length := by
  obtain ⟨brv, bpr, tv, h1, h2, h3, h4⟩ := ht
  unfold rows_for_bp at hok
  simp only [h1, h2, h3, h4, Bind.bind, Except.bind, if_true] at hok
  exact (rows_for_tests_spec domain page bpv tv T rows hok).1

theorem rows_for_bps_length (domain page : String) (T : List String) (rt : JValue)
    (bps : List JValue) (rows : List RespRow)
    (ht : ∀ bpv ∈ bps, bp_has_tree rt bpv)
    (hok : rows_for_bps domain page T rt bps = .ok rows) :
    rows.length = bps.length * T.length := by
  induction bps generalizing rows with
  | nil =>
    simp only [rows_for_bps, Except.ok.injEq] at hok
    subst hok
    simp
  | cons bpv rest ih =>
    simp only [rows_for_bps] at hok
    cases h1 : rows_for_bp domain page T rt bpv with
    | error e => simp [h1, Bind.bind, Except.bind] at hok
    | ok rows1 =>
      simp only [h1, Bind.bind, Except.bind] at hok
      cases h2 : rows_for_bps domain page T rt rest with
      | error e => simp [h2, Bind.bind, Except.bind] at hok
      | ok rows2 =>
        simp only [h2, Bind.bind, Except.bind] at hok
        cases hok
        have l1 := rows_for_bp_tree domain page T rt bpv rows1
          (ht bpv (List.mem_cons_self _ _)) h1
        have l2 := ih rows2 (fun b hb => ht b (List.mem_cons_of_mem _ hb)) h2
        simp only [List.length_append, List.length_cons]
        rw [l1, l2]
        ring

/-- C6 counterexample: a page declaring breakpoints `{320, 768, 1024}` whose
`breakpoint_results` carry only the `"320"` tree (with both discovered test
types `overflow` and `touchTargets`).  The claim requires 6 rows (one per
breakpoint per test type, with `"Not Tested"` for absent trees); the code
emits only 2 — breakpoints without result trees produce no rows. -/
theorem c6_counterexample :
    (responsive_matrix_rows [c6_page]).map List.length = .ok 2 ∧ (2 : Nat) ≠ 6 :=
  ⟨rfl, by simp⟩

/-- C6 amended: (a) for one breakpoint whose result tree is present, the
pivot emits exactly one row per discovered test type, every row's status is
one of `"Issues Found"`, `"Pass"`, `"Not Tested"`, and a test type absent
from that breakpoint's tree gets `"Not Tested"`, never `"Pass"`; (b) a page
emits `breakpoints × testTypes` rows only when every declared breakpoint's
`str(bp)` key is present in `breakpoint_results` with a
`tests.responsive.tests` structure — breakpoints without such a tree emit no
rows at all. -/
theorem c6_amended :
    (∀ (domain page : String) (bpv tv : JValue) (T : List String)
        (rows : List RespRow),
        rows_for_tests domain page bpv tv T = .ok rows →
        rows.length = T.length ∧
        ∀ row ∈ rows,
          (row.status = "Issues Found" ∨ row.status = "Pass" ∨
            row.status = "Not Tested") ∧
          (pyContains tv row.test = .ok false → row.status = "Not Tested")) ∧
    (∀ (domain page : String) (T : List String) (rt : JValue) (bps : List JValue)
        (rows : List RespRow),
        (∀ bpv ∈ bps, bp_has_tree rt bpv) →
        rows_for_bps domain page T rt bps = .ok rows →
        rows.length = bps.length * T.length) :=
  ⟨fun domain page bpv tv T rows hok =>
      rows_for_tests_spec domain page bpv tv T rows hok,
   fun domain page T rt bps rows ht hok =>
      rows_for_bps_length domain page T rt bps rows ht hok⟩

/-- C6 amended, witness: with all three declared breakpoints carrying result
trees and two discovered test types, exactly 3 × 2 = 6 rows are emitted. -/
theorem c6_amended_witness :
    (rows_for_bps "example.com" "home" ["overflow", "touchTargets"] c6_rt_full
      [.int 320, .int 768, .int 1024]).map List.length = .ok (3 * 2) := by
  obtain ⟨rows, hok⟩ : ∃ rows,
      rows_for_bps "example.com" "home" ["overflow", "touchTargets"] c6_rt_full
        [.int 320, .int 768, .int 1024] = .ok rows := ⟨_, rfl⟩
  rw [hok]
  have htrees : ∀ bpv ∈ ([.int 320, .int 768, .int 1024] : List JValue),
      bp_has_tree c6_rt_full bpv := by
    intro bpv hm
    rcases hm with _ | ⟨_, _ | ⟨_, _ | ⟨_, hm⟩⟩⟩
    · exact ⟨_, _, _, rfl, rfl, rfl, rfl⟩
    · exact ⟨_, _, _, rfl, rfl, rfl, rfl⟩
    · exact ⟨_, _, _, rfl, rfl, rfl, rfl⟩
    · cases hm
  have := c6_amended.2 "example.com" "home" ["overflow", "touchTargets"]
    c6_rt_full [.int 320, .int 768, .int 1024] rows htrees hok
  simp [Except.map, this]

/-! ## Documentation-registration lemmas (C7) -/

theorem pres_docs_add_if_absent {m : Obj} {k : String} {v : JValue}
    (k' : String) (w : JValue) (h : dictFind k m = some v) :
    dictFind k (docs_add_if_absent m k' w) = some v := by
  unfold docs_add_if_absent
  by_cases hm : dictMem k' m
  · simp [hm, h]
  · have hne : k' ≠ k := by
      intro he
      subst he
      simp [dictMem, h] at hm
    rw [if_neg hm, dictFind_dictSet_of_ne _ hne]
    exact h

theorem pres_add_entries_guarded {m : Obj} {k : String} {v : JValue}
    (entries : List (String × JValue)) (h : dictFind k m = some v) :
    dictFind k (add_entries_guarded m entries) = some v := by
  induction entries generalizing m with
  | nil => exact h
  | cons p rest ih =>
    exact ih (pres_docs_add_if_absent p.1 p.2 h)

theorem pres_run_tests_docs {m : Obj} {k : String} {v : JValue}
    (tests : List (String × JValue)) (h : dictFind k m = some v) :
    dictFind k (run_tests_docs m tests) = some v := by
  induction tests generalizing m with
  | nil => exact h
  | cons p rest ih =>
    obtain ⟨tn, td⟩ := p
    cases td with
    | obj tdd =>
      simp only [run_tests_docs]
      by_cases hd : dictMem "documentation" tdd
      · rw [if_pos hd]
        exact ih (pres_docs_add_if_absent tn _ h)
      · rw [if_neg hd]
        exact ih h
    | null => exact ih h
    | bool b => exact ih h
    | int n => exact ih h
    | str s => exact ih h
    | list xs => exact ih h

theorem pres_collect_run_docs {m : Obj} {k : String} {v : JValue} (run : Obj)
    (h : dictFind k m = some v) :
    dictFind k (collect_run_docs m run).1 = some v := by
  unfold collect_run_docs
  have h₁ : ∀ m₁ : Obj, dictFind k m₁ = some v →
      dictFind k (match dictFind "tests" run with
        | none => (m₁, false)
        | some (.obj tests) => (run_tests_docs m₁ tests, false)
        | some _ => (m₁, true)).1 = some v := by
    intro m₁ h₁
    cases ht : dictFind "tests" run with
    | none => exact h₁
    | some tv =>
      cases tv with
      | obj tests => exact pres_run_tests_docs tests h₁
      | null => exact h₁
      | bool b => exact h₁
      | int n => exact h₁
      | str s => exact h₁
      | list xs => exact h₁
  cases hd : dictFind "documentation" run with
  | none => exact h₁ m h
  | some dv =>
    cases dv with
    | obj entries => exact h₁ _ (pres_add_entries_guarded entries h)
    | null => exact h₁ m h
    | bool b => exact h₁ m h
    | int n => exact h₁ m h
    | str s => exact h₁ m h
    | list xs => exact h₁ m h

theorem pres_collect_runs_docs {m : Obj} {k : String} {v : JValue}
    (runs : List Obj) (h : dictFind k m = some v) :
    dictFind k (collect_runs_docs m runs) = some v := by
  induction runs generalizing m with
  | nil => exact h
  | cons run rest ih =>
    simp only [collect_runs_docs]
    by_cases hr : (collect_run_docs m run).2
    · rw [if_pos hr]
      exact pres_collect_run_docs run h
    · rw [if_neg hr]
      exact ih (pres_collect_run_docs run h)

theorem pres_pages_loop_a_tests {m m' : Obj} {k : String} {v : JValue}
    (tests : List (String × JValue)) (h : dictFind k m = some v)
    (hrun : pages_loop_a_tests m tests = .ok m') : dictFind k m' = some v := by
  induction tests generalizing m with
  | nil =>
    simp only [pages_loop_a_tests, Except.ok.injEq] at hrun
    exact hrun ▸ h
  | cons p rest ih =>
    obtain ⟨tn, td⟩ := p
    cases td with
    | obj tdd =>
      simp only [pages_loop_a_tests] at hrun
      by_cases hd : dictMem "documentation" tdd
      · rw [if_pos hd] at hrun
        exact ih (pres_docs_add_if_absent tn _ h) hrun
      · rw [if_neg hd] at hrun
        cases hin : dictFind tn tdd with
        | none =>
          simp only [hin, Bind.bind, Except.bind, pure, Except.pure] at hrun
          rw [if_neg (by simp)] at hrun
          exact ih h hrun
        | some inner =>
          simp only [hin, Bind.bind, Except.bind] at hrun
          cases hc : pyContains inner "documentation" with
          | error e => simp [hc] at hrun
          | ok hit =>
            simp only [hc] at hrun
            cases hit with
            | false =>
              rw [if_neg (by simp)] at hrun
              exact ih h hrun
            | true =>
              rw [if_pos rfl] at hrun
              cases hix : pyIndex (.obj tdd) tn with
              | error e => simp [hix, Bind.bind, Except.bind] at hrun
              | ok innerv =>
                simp only [hix, Bind.bind, Except.bind] at hrun
                cases hdoc : pyIndex innerv "documentation" with
                | error e => simp [hdoc, Bind.bind, Except.bind] at hrun
                | ok doc =>
                  simp only [hdoc, Bind.bind, Except.bind] at hrun
                  exact ih (pres_docs_add_if_absent tn doc h) hrun
    | null => exact ih h (by simpa [pages_loop_a_tests] using hrun)
    | bool b => exact ih h (by simpa [pages_loop_a_tests] using hrun)
    | int n => exact ih h (by simpa [pages_loop_a_tests] using hrun)
    | str s => exact ih h (by simpa [pages_loop_a_tests] using hrun)
    | list xs => exact ih h (by simpa [pages_loop_a_tests] using hrun)

theorem pres_pages_loop_a {m m' : Obj} {k : String} {v : JValue}
    (results : List Obj) (h : dictFind k m = some v)
    (hrun : pages_loop_a m results = .ok m') : dictFind k m' = some v := by
  induction results generalizing m with
  | nil =>
    simp only [pages_loop_a, Except.ok.injEq] at hrun
    exact hrun ▸ h
  | cons r rest ih =>
    simp only [pages_loop_a] at hrun
    cases hd : doc_result_tests r with
    | error e => simp [hd, Bind.bind, Except.bind] at hrun
    | ok ot =>
      simp only [hd, Bind.bind, Except.bind] at hrun
      cases ot with
      | none => exact ih h hrun
      | some tests =>
        cases ht : pages_loop_a_tests m tests with
        | error e => simp [ht, Bind.bind, Except.bind] at hrun
        | ok m₁ =>
          simp only [ht, Bind.bind, Except.bind] at hrun
          exact ih (pres_pages_loop_a_tests tests h ht) hrun

theorem scan_fields_shape (m : Obj) (tn : String)
    (fields : List (String × JValue)) :
    scan_fields m tn fields = m ∨ ∃ doc, scan_fields m tn fields = dictSet tn doc m := by
  induction fields with
  | nil => exact Or.inl rfl
  | cons p rest ih =>
    obtain ⟨fk, fd⟩ := p
    cases fd with
    | obj fdd =>
      by_cases hd : dictMem "documentation" fdd
      · exact Or.inr ⟨(dictFind "documentation" fdd).getD JValue.null,
          by simp [scan_fields, hd]⟩
      · simpa [scan_fields, hd] using ih
    | null => simpa [scan_fields] using ih
    | bool b => simpa [scan_fields] using ih
    | int n => simpa [scan_fields] using ih
    | str s => simpa [scan_fields] using ih
    | list xs => simpa [scan_fields] using ih

theorem strategy4_shape (m : Obj) (tn : String) (td : JValue) (m₂ : Obj)
    (h : strategy4 m tn td = .ok m₂) :
    m₂ = m ∨ ∃ doc, m₂ = dictSet tn doc m := by
  cases td with
  | obj tdd =>
    simp only [strategy4, Except.ok.injEq] at h
    subst h
    exact scan_fields_shape m tn tdd
  | null => simp [strategy4] at h
  | bool b => simp [strategy4] at h
  | int n => simp [strategy4] at h
  | str s => simp [strategy4] at h
  | list xs => simp [strategy4] at h

theorem loop_b_strat34_shape (m : Obj) (tn : String) (td : JValue) (m₂ : Obj)
    (h : loop_b_strat34 m tn td = .ok m₂) :
    m₂ = m ∨ ∃ doc, m₂ = dictSet tn doc m := by
  unfold loop_b_strat34 at h
  by_cases hu : tn.data.contains '_'
  · rw [if_pos hu] at h
    cases hc : pyContains td tn with
    | error e => simp [hc, Bind.bind, Except.bind] at h
    | ok present =>
      simp only [hc, Bind.bind, Except.bind] at h
      cases present with
      | false =>
        rw [if_neg (by simp)] at h
        exact strategy4_shape m tn td m₂ h
      | true =>
        rw [if_pos rfl] at h
        cases hix : pyIndex td tn with
        | error e => simp [hix, Bind.bind, Except.bind] at h
        | ok fd =>
          simp only [hix, Bind.bind, Except.bind] at h
          cases fd with
          | obj fdd =>
            by_cases hd : dictMem "documentation" fdd
            · have h' : (Except.ok
                  (dictSet tn ((dictFind "documentation" fdd).getD JValue.null) m)
                    : Except String Obj) =
                  Except.ok m₂ := by
                rw [← h]
                simp [hd]
              cases h'
              exact Or.inr ⟨_, rfl⟩
            · have h' : strategy4 m tn td = .ok m₂ := by
                rw [← h]
                simp [hd]
              exact strategy4_shape m tn td m₂ h'
          | null => exact strategy4_shape m tn td m₂ h
          | bool b => exact strategy4_shape m tn td m₂ h
          | int n => exact strategy4_shape m tn td m₂ h
          | str s => exact strategy4_shape m tn td m₂ h
          | list xs => exact strategy4_shape m tn td m₂ h
  · rw [if_neg hu] at h
    exact strategy4_shape m tn td m₂ h

theorem loop_b_one_shape (m : Obj) (tn : String) (td : JValue) (m₂ : Obj)
    (h : loop_b_one m tn td = .ok m₂) :
    m₂ = m ∨ ∃ doc, m₂ = dictSet tn doc m := by
  unfold loop_b_one at h
  cases td with
  | obj tdd =>
    by_cases hd : dictMem "documentation" tdd
    · simp only [hd, if_pos, Except.ok.injEq] at h
      exact Or.inr ⟨_, h.symm⟩
    · simp only [hd] at h
      rw [if_neg (by simp)] at h
      cases hof : dictFind (output_field_for tn) tdd with
      | some ov =>
        cases ov with
        | obj od =>
          by_cases hod : dictMem "documentation" od
          · simp only [hof, hod, if_pos, Except.ok.injEq] at h
            exact Or.inr ⟨_, h.symm⟩
          · simp only [hof, hod] at h
            rw [if_neg (by simp)] at h
            exact loop_b_strat34_shape m tn (.obj tdd) m₂ h
        | null =>
          simp only [hof] at h
          exact loop_b_strat34_shape m tn (.obj tdd) m₂ h
        | bool b =>
          simp only [hof] at h
          exact loop_b_strat34_shape m tn (.obj tdd) m₂ h
        | int n =>
          simp only [hof] at h
          exact loop_b_strat34_shape m tn (.obj tdd) m₂ h
        | str s =>
          simp only [hof] at h
          exact loop_b_strat34_shape m tn (.obj tdd) m₂ h
        | list xs =>
          simp only [hof] at h
          exact loop_b_strat34_shape m tn (.obj tdd) m₂ h
      | none =>
        simp only [hof] at h
        exact loop_b_strat34_shape m tn (.obj tdd) m₂ h
  | null => exact loop_b_strat34_shape m tn .null m₂ h
  | bool b => exact loop_b_strat34_shape m tn (.bool b) m₂ h
  | int n => exact loop_b_strat34_shape m tn (.int n) m₂ h
  | str s => exact loop_b_strat34_shape m tn (.str s) m₂ h
  | list xs => exact loop_b_strat34_shape m tn (.list xs) m₂ h

theorem pres_pages_loop_b_tests {m m' : Obj} {k : String} {v : JValue}
    (tests : List (String × JValue)) (h : dictFind k m = some v)
    (hrun : pages_loop_b_tests m tests = .ok m') : dictFind k m' = some v := by
  induction tests generalizing m with
  | nil =>
    simp only [pages_loop_b_tests, Except.ok.injEq] at hrun
    exact hrun ▸ h
  | cons p rest ih =>
    obtain ⟨tn, td⟩ := p
    simp only [pages_loop_b_tests] at hrun
    by_cases hmem : dictMem tn m
    · rw [if_pos hmem] at hrun
      exact ih h hrun
    · rw [if_neg hmem] at hrun
      cases hob : loop_b_one m tn td with
      | error e => simp [hob, Bind.bind, Except.bind] at hrun
      | ok m₂ =>
        simp only [hob, Bind.bind, Except.bind] at hrun
        have hne : tn ≠ k := by
          intro he
          subst he
          simp [dictMem, h] at hmem
        have h₂ : dictFind k m₂ = some v := by
          rcases loop_b_one_shape m tn td m₂ hob with heq | ⟨doc, heq⟩
          · exact heq ▸ h
          · subst heq
            rw [dictFind_dictSet_of_ne _ hne]
            exact h
        exact ih h₂ hrun

theorem pres_pages_loop_b {m m' : Obj} {k : String} {v : JValue}
    (results : List Obj) (h : dictFind k m = some v)
    (hrun : pages_loop_b m results = .ok m') : dictFind k m' = some v := by
  induction results generalizing m with
  | nil =>
    simp only [pages_loop_b, Except.ok.injEq] at hrun
    exact hrun ▸ h
  | cons r rest ih =>
    simp only [pages_loop_b] at hrun
    cases hd : doc_result_tests r with
    | error e => simp [hd, Bind.bind, Except.bind] at hrun
    | ok ot =>
      simp only [hd, Bind.bind, Except.bind] at hrun
      cases ot with
      | none => exact ih h hrun
      | some tests =>
        cases ht : pages_loop_b_tests m tests with
        | error e => simp [ht, Bind.bind, Except.bind] at hrun
        | ok m₁ =>
          simp only [ht, Bind.bind, Except.bind] at hrun
          exact ih (pres_pages_loop_b_tests tests h ht) hrun

/-- C7 counterexample: register run-level documentation `"DOC-A"` for
`"forms"`, then a second source with inline tests documentation `"DOC-B"`
for the same identifier.  The run-level prescan of `generate_excel_report`
stores `"DOC-B"`, overwriting the first-registered content. -/
theorem c7_counterexample :
    prescan_runs [] [c7_run1] = [("forms", .str "DOC-A")] ∧
    dictFind "forms" (prescan_runs [] [c7_run1, c7_run2]) = some (.str "DOC-B") ∧
    JValue.str "DOC-A" ≠ JValue.str "DOC-B" :=
  ⟨rfl, rfl, by
    intro h
    injection h with h'
    exact absurd h' (by decide)⟩

/-- C7 amended: registration inside `collect_test_documentation` is
first-found-wins — a prior entry for a given key is never overwritten there
— but the run-level documentation prescan of `generate_excel_report` can
overwrite a prior entry: the inline tests-documentation path assigns
unconditionally (line 667), and the variant-key path reassigns the base
lower-cased key (line 657). -/
theorem c7_amended (m : Obj) (runs results : List Obj) (k : String)
    (v : JValue) (m' : Obj) (hk : dictFind k m = some v)
    (hrun : collect_test_documentation m runs results = .ok m') :
    dictFind k m' = some v := by
  unfold collect_test_documentation at hrun
  have h₁ : dictFind k (collect_runs_docs m runs) = some v :=
    pres_collect_runs_docs runs hk
  cases ha : pages_loop_a (collect_runs_docs m runs) results with
  | error e => simp [ha, Bind.bind, Except.bind] at hrun
  | ok m₂ =>
    simp only [ha, Bind.bind, Except.bind] at hrun
    exact pres_pages_loop_b results (pres_pages_loop_a results h₁ ha) hrun

/-- C7 amended, witness: collecting documentation over a page that adds a
new `"colors"` entry leaves the pre-existing `"forms"` entry intact. -/
theorem c7_amended_witness :
    dictFind "forms" [("forms", JValue.str "DOC-A"), ("colors", JValue.str "DOC-C")] =
      some (.str "DOC-A") :=
  c7_amended [("forms", .str "DOC-A")] [] [c7_page] "forms" (.str "DOC-A")
    [("forms", .str "DOC-A"), ("colors", .str "DOC-C")] rfl rfl

/-! ## Variant-closure lemmas (C8) -/

theorem map_swap_id {a b : Char} (l : List Char) (h : a ∉ l) :
    l.map (fun c => if c = a then b else c) = l := by
  induction l with
  | nil => rfl
  | cons c rest ih =>
    have hca : c ≠ a := fun he => h (he ▸ List.mem_cons_self c rest)
    simp [hca, ih fun hm => h (List.mem_cons_of_mem _ hm)]

theorem replace_id_of_not_mem (T : String) (a b : Char) (h : a ∉ T.data) :
    pyReplaceChar T a b = T := by
  cases T with
  | mk data => exact congrArg String.mk (map_swap_id data h)

theorem map_swap_swap {a b : Char} (l : List Char) (h : b ∉ l) :
    (l.map (fun c => if c = a then b else c)).map
      (fun c => if c = b then a else c) = l := by
  induction l with
  | nil => rfl
  | cons c rest ih =>
    have hcb : c ≠ b := fun he => h (he ▸ List.mem_cons_self c rest)
    have hrest := ih fun hm => h (List.mem_cons_of_mem _ hm)
    by_cases hca : c = a
    · subst hca
      simp [hrest]
    · simp [hca, hcb, hrest]

theorem replace_replace_of_not_mem (T : String) (a b : Char) (h : b ∉ T.data) :
    pyReplaceChar (pyReplaceChar T a b) b a = T := by
  cases T with
  | mk data => exact congrArg String.mk (map_swap_swap data h)

theorem dictMem_exists {k : String} {d : List (String × α)}
    (h : dictMem k d = true) : ∃ v, (k, v) ∈ d := by
  induction d with
  | nil => simp [dictMem, dictFind] at h
  | cons p rest ih =>
    obtain ⟨k', v'⟩ := p
    by_cases hk : k' = k
    · subst hk
      exact ⟨v', List.mem_cons_self _ _⟩
    · simp only [dictMem, dictFind, if_neg hk] at h
      obtain ⟨v, hv⟩ := ih h
      exact ⟨v, List.mem_cons_of_mem _ hv⟩

theorem firstPresent_eq_of {docs : Obj} {T : String} {D : JValue}
    (h0 : dictFind T docs = some D) (vlist : List String) (hT : T ∈ vlist)
    (hOnly : ∀ key ∈ vlist, dictMem key docs = true → key = T) :
    firstPresent docs vlist = some D := by
  induction vlist with
  | nil => cases hT
  | cons key rest ih =>
    unfold firstPresent
    by_cases hm : dictMem key docs
    · have hk : key = T := hOnly key (List.mem_cons_self _ _) hm
      subst hk
      rw [if_pos hm]
      exact h0
    · rw [if_neg hm]
      have hTrest : T ∈ rest := by
        rcases List.mem_cons.mp hT with h1 | h1
        · subst h1
          exact absurd (by simp [dictMem, h0]) hm
        · exact h1
      exact ih hTrest fun key' h' hm' => hOnly key' (List.mem_cons_of_mem _ h') hm'

/-- C8 counterexample: with a DocumentationRecord registered under the
mixed-separator identifier `"a-b_c"`, resolving `T.replace('_','-')` (equal
to `"a-b-c"`) finds nothing — none of its five lookup variants reproduces
the stored key — while resolving `T` itself succeeds. -/
theorem c8_counterexample :
    pyReplaceChar "a-b_c" '_' '-' = "a-b-c" ∧
    lookup_doc_variants [("a-b_c", JValue.str "D")] "a-b_c" = some (.str "D") ∧
    lookup_doc_variants [("a-b_c", JValue.str "D")] "a-b-c" = none :=
  ⟨rfl, rfl, rfl⟩

/-- C8 amended: for a registered identifier `T` that contains no uppercase
letters (its case round-trip is the identity) and does not mix hyphens and
underscores, and in a resolver state where no other registered key collides
with any probed naming variant, looking up `T.upper()`,
`T.replace('_','-')` and `T.replace('-','_')` each returns the same
documentation content as looking up `T`. -/
theorem c8_amended (docs : Obj) (T : String) (D : JValue)
    (h0 : dictFind T docs = some D)
    (hks : ∀ p ∈ docs, p.1 ∈ all_variant_keys T → p.1 = T)
    (hup : pyLower (pyUpper T) = T)
    (hsep : ('-' ∉ T.data) ∨ ('_' ∉ T.data)) :
    lookup_doc_variants docs (pyUpper T) = some D ∧
    lookup_doc_variants docs (pyReplaceChar T '_' '-') = some D ∧
    lookup_doc_variants docs (pyReplaceChar T '-' '_') = some D ∧
    lookup_doc_variants docs T = some D := by
  have honly : ∀ (vl : List String), (∀ key ∈ vl, key ∈ all_variant_keys T) →
      ∀ key ∈ vl, dictMem key docs = true → key = T := by
    intro vl hsub key hk hm
    obtain ⟨v, hv⟩ := dictMem_exists hm
    exact hks (key, v) hv (hsub key hk)
  have sub1 : ∀ key ∈ test_name_variants T, key ∈ all_variant_keys T := by
    intro key h
    exact List.mem_append_left _ (List.mem_append_left _ (List.mem_append_left _ h))
  have sub2 : ∀ key ∈ test_name_variants (pyUpper T), key ∈ all_variant_keys T := by
    intro key h
    exact List.mem_append_left _ (List.mem_append_left _ (List.mem_append_right _ h))
  have sub3 : ∀ key ∈ test_name_variants (pyReplaceChar T '_' '-'),
      key ∈ all_variant_keys T := by
    intro key h
    exact List.mem_append_left _ (List.mem_append_right _ h)
  have sub4 : ∀ key ∈ test_name_variants (pyReplaceChar T '-' '_'),
      key ∈ all_variant_keys T := by
    intro key h
    exact List.mem_append_right _ h
  refine ⟨?_, ?_, ?_, ?_⟩
  · refine firstPresent_eq_of h0 _ ?_ (honly _ sub2)
    simp only [test_name_variants, List.mem_cons, List.mem_singleton]
    exact Or.inr (Or.inr (Or.inr (Or.inl hup.symm)))
  · refine firstPresent_eq_of h0 _ ?_ (honly _ sub3)
    simp only [test_name_variants, List.mem_cons, List.mem_singleton]
    rcases hsep with hnh | hnu
    · exact Or.inr (Or.inl (replace_replace_of_not_mem T '_' '-' hnh).symm)
    · exact Or.inl (replace_id_of_not_mem T '_' '-' hnu).symm
  · refine firstPresent_eq_of h0 _ ?_ (honly _ sub4)
    simp only [test_name_variants, List.mem_cons, List.mem_singleton]
    rcases hsep with hnh | hnu
    · exact Or.inl (replace_id_of_not_mem T '-' '_' hnh).symm
    · exact Or.inr (Or.inr (Or.inl (replace_replace_of_not_mem T '-' '_' hnu).symm))
  · exact firstPresent_eq_of h0 _ (List.mem_cons_self _ _) (honly _ sub1)

/-- C8 amended, witness: with only `"forms"` registered, all three variant
lookups return its content. -/
theorem c8_amended_witness :
    lookup_doc_variants [("forms", JValue.str "D")] (pyUpper "forms") = some (.str "D") ∧
    lookup_doc_variants [("forms", JValue.str "D")]
      (pyReplaceChar "forms" '_' '-') = some (.str "D") ∧
    lookup_doc_variants [("forms", JValue.str "D")]
      (pyReplaceChar "forms" '-' '_') = some (.str "D") ∧
    lookup_doc_variants [("forms", JValue.str "D")] "forms" = some (.str "D") :=
  c8_amended [("forms", .str "D")] "forms" (.str "D") rfl
    (by
      intro p hp hin
      simp only [List.mem_singleton] at hp
      subst hp
      rfl)
    rfl
    (Or.inr (by decide))

/-! ## Malformed-record lemmas (C9) -/

theorem process_page_skip {r : Obj}
    (h : missing_results r ∨ missing_accessibility r ∨ missing_tests r)
    (docs : Obj) (t : IssueTotals) : process_page docs t r = .ok t := by
  rcases h with h | h | h
  · simp only [missing_results] at h
    simp [process_page, h]
  · simp only [missing_accessibility] at h
    obtain ⟨f, hf, hacc⟩ := h
    simp [process_page, hf, pyContains, dictMem, hacc, Bind.bind, Except.bind]
  · simp only [missing_tests] at h
    obtain ⟨f, g, hf, hacc, ht⟩ := h
    simp [process_page, hf, pyContains, dictMem, hacc, ht, pyIndex, pyGetD,
      Bind.bind, Except.bind, process_tests]

theorem page_has_tests_skip {r : Obj}
    (h : missing_results r ∨ missing_accessibility r ∨ missing_tests r) :
    page_has_tests r = .ok false := by
  rcases h with h | h | h
  · simp only [missing_results] at h
    simp [page_has_tests, h]
  · simp only [missing_accessibility] at h
    obtain ⟨f, hf, hacc⟩ := h
    simp [page_has_tests, hf, pyContains, dictMem, hacc, Bind.bind, Except.bind]
  · simp only [missing_tests] at h
    obtain ⟨f, g, hf, hacc, ht⟩ := h
    simp [page_has_tests, hf, pyContains, dictMem, hacc, ht, pyIndex, pyGetD,
      Bind.bind, Except.bind, pyTruthy]

theorem count_pages_skip {r : Obj} (rest : List Obj)
    (h : missing_results r ∨ missing_accessibility r ∨ missing_tests r) :
    count_pages_with_issues (r :: rest) = count_pages_with_issues rest := by
  simp only [count_pages_with_issues, page_has_tests_skip h, Bind.bind, Except.bind]
  cases hc : count_pages_with_issues rest <;> simp [Bind.bind, Except.bind]

theorem summary_skip {r : Obj} (docs : Obj) (rest : List Obj)
    (h : missing_results r ∨ missing_accessibility r ∨ missing_tests r) :
    (calculate_summary docs (r :: rest)).map
      (fun s => (s.total_issues, s.issues_by_type)) =
    (calculate_summary docs rest).map
      (fun s => (s.total_issues, s.issues_by_type)) := by
  have h1 : process_pages docs ⟨0, []⟩ (r :: rest) = process_pages docs ⟨0, []⟩ rest := by
    simp [process_pages, process_page_skip h docs ⟨0, []⟩, Bind.bind, Except.bind]
  have h2 := count_pages_skip rest h
  unfold calculate_summary
  rw [h1, h2]
  cases hp : process_pages docs ⟨0, []⟩ rest <;>
    cases hc : count_pages_with_issues rest <;>
      simp [Bind.bind, Except.bind, Except.map]

theorem url_go_skip {r : Obj} (docs : Obj) (m : List (JValue × List UrlIssue))
    (rest : List Obj) (h : missing_results r ∨ missing_accessibility r) :
    issues_by_url_go docs m (r :: rest) = issues_by_url_go docs m rest := by
  rcases h with h | h
  · simp only [missing_results] at h
    simp [issues_by_url_go, h, Bind.bind, Except.bind, pure, Except.pure]
  · simp only [missing_accessibility] at h
    obtain ⟨f, hf, hacc⟩ := h
    simp [issues_by_url_go, hf, pyContains, dictMem, hacc, Bind.bind, Except.bind,
      pure, Except.pure]

theorem url_go_err {r : Obj} (docs : Obj) (m : List (JValue × List UrlIssue))
    (rest : List Obj) (h : missing_tests r) :
    issues_by_url_go docs m (r :: rest) = .error ("KeyError: " ++ "tests") := by
  simp only [missing_tests] at h
  obtain ⟨f, g, hf, hacc, ht⟩ := h
  simp [issues_by_url_go, hf, pyContains, dictMem, hacc, pyIndex, ht,
    Bind.bind, Except.bind]

theorem site_go_skip {r : Obj} (docs : Obj)
    (m : List (String × List (String × SiteAgg))) (rest : List Obj)
    (h : missing_results r ∨ missing_accessibility r) :
    issues_by_site_go docs m (r :: rest) = issues_by_site_go docs m rest := by
  rcases h with h | h
  · simp only [missing_results] at h
    simp [issues_by_site_go, h, Bind.bind, Except.bind, pure, Except.pure]
  · simp only [missing_accessibility] at h
    obtain ⟨f, hf, hacc⟩ := h
    simp [issues_by_site_go, hf, pyContains, dictMem, hacc, Bind.bind, Except.bind,
      pure, Except.pure]

theorem site_go_err {r : Obj} (docs : Obj)
    (m : List (String × List (String × SiteAgg))) (rest : List Obj)
    (h : missing_tests r) :
    issues_by_site_go docs m (r :: rest) = .error ("KeyError: " ++ "tests") := by
  simp only [missing_tests] at h
  obtain ⟨f, g, hf, hacc, ht⟩ := h
  simp [issues_by_site_go, hf, pyContains, dictMem, hacc, pyIndex, ht,
    Bind.bind, Except.bind]

/-- C9 counterexample: a page result with `results.accessibility` present
but no `tests` key makes the issues-by-URL and issues-by-site computations
raise `KeyError` (they index `['tests']` directly), aborting processing of
the remaining records — here a following well-formed page is never
processed. -/
theorem c9_counterexample :
    issues_by_url [] [c9_bad_page, c1_page] = .error "KeyError: tests" ∧
    issues_by_site [] [c9_bad_page, c1_page] = .error "KeyError: tests" :=
  ⟨rfl, rfl⟩

/-- C9 amended: the summary computation skips a record missing any of
`results`, `accessibility` or `tests` (its issue rollups are unchanged);
the issues-by-URL and issues-by-site computations skip records missing
`results` or `accessibility`, but a record with both present and `tests`
absent raises `KeyError` and aborts them. -/
theorem c9_amended (docs : Obj) (r : Obj) (rest : List Obj) :
    ((missing_results r ∨ missing_accessibility r ∨ missing_tests r) →
      (calculate_summary docs (r :: rest)).map
        (fun s => (s.total_issues, s.issues_by_type)) =
      (calculate_summary docs rest).map
        (fun s => (s.total_issues, s.issues_by_type))) ∧
    ((missing_results r ∨ missing_accessibility r) →
      issues_by_url docs (r :: rest) = issues_by_url docs rest ∧
      issues_by_site docs (r :: rest) = issues_by_site docs rest) ∧
    (missing_tests r →
      issues_by_url docs (r :: rest) = .error "KeyError: tests" ∧
      issues_by_site docs (r :: rest) = .error "KeyError: tests") := by
  refine ⟨fun h => summary_skip docs rest h, fun h => ⟨?_, ?_⟩, fun h => ⟨?_, ?_⟩⟩
  · exact url_go_skip docs [] rest h
  · exact site_go_skip docs [] rest h
  · exact url_go_err docs [] rest h
  · exact site_go_err docs [] rest h

/-- C9 amended, witness: the malformed page alone makes both table
computations raise. -/
theorem c9_amended_witness :
    issues_by_url [] [c9_bad_page] = .error "KeyError: tests" ∧
    issues_by_site [] [c9_bad_page] = .error "KeyError: tests" :=
  (c9_amended [] c9_bad_page []).2.2
    (by exact ⟨[("accessibility", .obj [("other", .null)])], [("other", .null)],
      rfl, rfl, rfl⟩)

end XlsGen
